import Mathlib

/-!
Shallow embedding of `src/clean-native-props.ts` (Mendix native-to-web design
property remediation script, v2.0) together with proofs about the claims of
its specification.

Modelling conventions, chosen to mirror the JavaScript/TypeScript semantics of
the source:

* Optional string fields of `PropertyMappingV2` (`mappedProperty?`,
  `mappedValue?`, ...) are modelled as `String` with `""` standing for
  `undefined`.  The source only ever tests these fields for truthiness
  (`if (x)`, `x || d`, `x === "Spacing"`), and `undefined` and `""` are both
  falsy and behave identically in every such test, so the collapse is exact.
* A design property value (`pages.DesignPropertyValueType | null`) is the
  closed variant set `DesignValue` (`null`, option, toggle, compound); the
  source's defensive branches for primitive values are dead for SDK data.
* JS object identity of `DesignPropertyValue` model elements (used by
  `IList.remove` / `indexOf` / `includes`) is modelled by a numeric `id`
  field; distinct SDK child elements are distinct objects.
* A JS object used as a string-keyed record (`baseState.margin` etc.) is an
  insertion-ordered association list `List (String × String)`; reading an
  absent key yields `Option.none` (JS `undefined`).
* A JS `Map` is an insertion-ordered association list built with
  `mapSet` (replace-in-place on an existing key, append otherwise) and read
  with `mapGet` (first entry with the key); a JS `Set` of strings is a
  `List String` queried with membership.
-/

namespace CleanNativeProps

/-! ### Data model (TYPE DEFINITIONS section of the source) -/

/-- The `action` field of `PropertyMappingV2`: `"map" | "remove" | "mapToWidgetProperty"`. -/
inductive MappingAction where
  | map
  | remove
  | mapToWidgetProperty
deriving DecidableEq

/-- `interface PropertyMappingV2`.  Optional fields are `String` with `""` for absent. -/
structure PropertyMappingV2 where
  property : String
  value : String
  elementTypes : List String
  action : MappingAction
  mappedProperty : String := ""
  mappedValue : String := ""
  mappedDirection : String := ""
  mappedType : String := ""
  widgetProperty : String := ""
  widgetValue : String := ""
  _reason : String := ""
deriving DecidableEq

/-- The value of a design property: `null`/`undefined`, an
`OptionDesignPropertyValue` (with its `option` string), a
`ToggleDesignPropertyValue`, or a `CompoundDesignPropertyValue` whose
`properties` children are key/value pairs. -/
inductive DesignValue where
  | null : DesignValue
  | option (o : String) : DesignValue
  | toggle : DesignValue
  | compound (props : List (String × DesignValue)) : DesignValue

/-- A `pages.DesignPropertyValue` model element: JS object identity is the
`id` field. -/
structure DesignPropertyValue where
  id : Nat
  key : String
  value : DesignValue

/-- The `action` column of a `CsvDataRow`. -/
inductive CsvAction where
  | mapped
  | removed
  | skipped
  | widgetPropertySet
deriving DecidableEq

/-- `interface CsvDataRow` (one audit record). -/
structure CsvDataRow where
  element : String
  elementType : String
  document : String
  module : String
  property : String
  value : String
  action : CsvAction
  mappedProperty : String := ""
  mappedValue : String := ""
  reason : String := ""
deriving DecidableEq

/-- `interface ProcessingResult`. -/
structure ProcessingResult where
  widgets : Nat := 0
  props : Nat := 0
  mapped : Nat := 0
  removed : Nat := 0
  widgetPropsMapped : Nat := 0
  skipped : Nat := 0
  skippedNativeLayouts : Nat := 0
deriving DecidableEq

/-- The `spacingType` of a collected spacing property: `"margin" | "padding"`. -/
inductive SpacingKind where
  | margin
  | padding
deriving DecidableEq

/-- String form of a `SpacingKind`, as interpolated into log lines and CSV values. -/
def SpacingKind.str : SpacingKind → String
  | SpacingKind.margin => "margin"
  | SpacingKind.padding => "padding"

/-- `interface SpacingState`: the two four-sided layers, each a JS object
from side name to value. -/
structure SpacingState where
  margin : List (String × String)
  padding : List (String × String)
deriving DecidableEq

/-- One element of `spacingPropertiesToMap` (the anonymous record type in
`processWidget`). -/
structure SpacingItem where
  prop : DesignPropertyValue
  mapping : PropertyMappingV2
  direction : String
  spacingType : SpacingKind

/-- A widget, reduced to the data `processWidget` reads: `tpe` is the element
type tag computed by `getWidgetTypeName` (structure type name / widget id),
`name` its name (`""` for unnamed), `isActionButton` the
`instanceof pages.ActionButton` test, `attrs` its widget-level attributes
(e.g. `buttonStyle`) as a JS object, and `designProperties` the
`appearance.designProperties` list. -/
structure Widget where
  tpe : String
  name : String
  isActionButton : Bool
  attrs : List (String × String)
  designProperties : List DesignPropertyValue

/-! ### JS containers -/

/-- Read a string-keyed JS object / `Map`: first entry with the key
(`Map.get`, or property access; `Option.none` is JS `undefined`). -/
def jsGet {α : Type} (o : List (String × α)) (k : String) : Option α :=
  (o.find? (fun e => e.1 == k)).map (fun e => e.2)

/-- Write a string-keyed JS object / `Map`: replace in place when the key
exists, append otherwise (JS insertion-order semantics). -/
def jsSet {α : Type} (o : List (String × α)) (k : String) (v : α) : List (String × α) :=
  if o.any (fun e => e.1 == k) then o.map (fun e => if e.1 == k then (k, v) else e)
  else o ++ [(k, v)]

/-- A sequence of `jsSet` writes applied in order. -/
def jsSetAll {α : Type} (dst src : List (String × α)) : List (String × α) :=
  src.foldl (fun d e => jsSet d e.1 e.2) dst

/-- Property read on a spacing-layer object. -/
def objGet (o : List (String × String)) (k : String) : Option String := jsGet o k

/-- Property write on a spacing-layer object. -/
def objSet (o : List (String × String)) (k v : String) : List (String × String) := jsSet o k v

/-- `Object.assign(dst, src)`: copy every own property of `src` onto `dst`. -/
def objAssign (dst src : List (String × String)) : List (String × String) := jsSetAll dst src

/-- `Map.get` for the mappings lookup map. -/
def mapGet (m : List (String × PropertyMappingV2)) (k : String) : Option PropertyMappingV2 :=
  jsGet m k

/-- `Map.set` for the mappings lookup map. -/
def mapSet (m : List (String × PropertyMappingV2)) (k : String) (v : PropertyMappingV2) :
    List (String × PropertyMappingV2) :=
  jsSet m k v

/-- `Set.add` for `MAPPED_PROPERTY_NAMES` (membership is all that is ever
queried, so a list suffices). -/
def setAdd (l : List String) (t : String) : List String :=
  if t ∈ l then l else l ++ [t]

/-! ### Rule catalog and resolver (`loadMappings`, `findMapping`) -/

/-- The lookup key `"property|value|elementType"`. -/
def mkKey (p v t : String) : String := p ++ "|" ++ v ++ "|" ++ t

/-- `mappingsFile.mappings.filter(m => m.property && m.value)`: comment-only
entries are discarded. -/
def filteredMappings (file : List PropertyMappingV2) : List PropertyMappingV2 :=
  file.filter (fun m => decide (m.property ≠ "") && decide (m.value ≠ ""))

/-- The `(key, mapping)` pairs produced by the nested build loop of
`loadMappings`, in the order the loop visits them. -/
def flatEntriesOf (file : List PropertyMappingV2) : List (String × PropertyMappingV2) :=
  (filteredMappings file).flatMap
    (fun m => m.elementTypes.map (fun et => (mkKey m.property m.value et, m)))

/-- `MAPPINGS_LOOKUP` as built by `loadMappings`: every key written with
`Map.set` in loop order, starting from the empty map. -/
def mappingsLookup (file : List PropertyMappingV2) : List (String × PropertyMappingV2) :=
  jsSetAll [] (flatEntriesOf file)

/-- `MAPPED_PROPERTY_NAMES` as built by `loadMappings` (only membership is used). -/
def mappedPropertyNames (file : List PropertyMappingV2) : List String :=
  (filteredMappings file).map (fun m => m.property)

/-- `findMapping`: specific element type first, then the `*` wildcard. -/
def findMapping (lookup : List (String × PropertyMappingV2)) (property value elementType : String) :
    Option PropertyMappingV2 :=
  match mapGet lookup (mkKey property value elementType) with
  | some m => some m
  | Option.none => mapGet lookup (mkKey property value "*")

/-- `TARGET_ELEMENT_TYPES`. -/
def TARGET_ELEMENT_TYPES : List String :=
  ["DynamicText", "DivContainer", "StaticImageViewer", "ListView", "ActionButton",
   "ReferenceSelector", "DropDown", "InputReferenceSetSelector", "CheckBox",
   "com.mendix.widget.native.badge.Badge", "TextArea", "ImageViewer", "Text"]

/-! ### `extractPropertyValue` -/

/-- `extractPropertyValue`: `null`/`undefined` gives `''`, an option value its
`option` string (`option || ''` collapses to the string itself), a compound
value the marker `"[Compound]"`, a toggle `"true"`.  The source's trailing
branches for primitive values cannot fire on SDK data. -/
def extractPropertyValue (v : DesignValue) : String :=
  match v with
  | DesignValue.null => ""
  | DesignValue.option o => o
  | DesignValue.compound _ => "[Compound]"
  | DesignValue.toggle => "true"

/-! ### Spacing state (`parseSpacingState` and the aggregation in `processWidget`) -/

/-- The object literal `{ top: "None", right: "None", bottom: "None", left: "None" }`. -/
def initialSpacingObj : List (String × String) :=
  [("top", "None"), ("right", "None"), ("bottom", "None"), ("left", "None")]

/-- The seeded `baseState` / the literal at the top of `parseSpacingState`. -/
def initialSpacingState : SpacingState :=
  { margin := initialSpacingObj, padding := initialSpacingObj }

/-- One iteration of the parse loop in `parseSpacingState`.  The source skips
falsy keys and values, extracts `option` only from an
`OptionDesignPropertyValue` and skips when it is falsy, then splits the key on
`"-"` and accepts it only when there are exactly two parts, the first
`"margin"` or `"padding"` and the second one of the four sides — i.e. exactly
the eight `kind-side` keys enumerated here (none of the accepted parts contain
a `"-"`, so the split-and-validate and the eight-way comparison accept the
same keys and agree on the parts). -/
def parseSpacingEntry (st : SpacingState) (key : String) (v : DesignValue) : SpacingState :=
  if key = "" then st
  else
    match v with
    | DesignValue.option o =>
      if o = "" then st
      else if key = "margin-top" then { st with margin := objSet st.margin "top" o }
      else if key = "margin-right" then { st with margin := objSet st.margin "right" o }
      else if key = "margin-bottom" then { st with margin := objSet st.margin "bottom" o }
      else if key = "margin-left" then { st with margin := objSet st.margin "left" o }
      else if key = "padding-top" then { st with padding := objSet st.padding "top" o }
      else if key = "padding-right" then { st with padding := objSet st.padding "right" o }
      else if key = "padding-bottom" then { st with padding := objSet st.padding "bottom" o }
      else if key = "padding-left" then { st with padding := objSet st.padding "left" o }
      else st
    | _ => st

/-- `parseSpacingState`: `undefined` input or a non-compound (or `null`) value
gives `undefined`; a compound value is folded entry by entry onto the default
state. -/
def parseSpacingState (p : Option DesignPropertyValue) : Option SpacingState :=
  match p with
  | Option.none => Option.none
  | some prop =>
    match prop.value with
    | DesignValue.compound entries =>
      some (entries.foldl (fun st e => parseSpacingEntry st e.1 e.2) initialSpacingState)
    | _ => Option.none

/-- Lines 664-676 of the source: seed `baseState` with the defaults and, when
the widget already has a parseable `Spacing` property, `Object.assign` the
parsed layers on top. -/
def seedSpacingState (existing : Option DesignPropertyValue) : SpacingState :=
  match existing with
  | Option.none => initialSpacingState
  | some sp =>
    match parseSpacingState (some sp) with
    | some parsed =>
      { margin := objAssign initialSpacingState.margin parsed.margin,
        padding := objAssign initialSpacingState.padding parsed.padding }
    | Option.none => initialSpacingState

/-- `baseState[type]`. -/
def SpacingState.obj (st : SpacingState) : SpacingKind → List (String × String)
  | SpacingKind.margin => st.margin
  | SpacingKind.padding => st.padding

/-- `baseState[type] = ...` (functional update of one layer). -/
def SpacingState.setObj (st : SpacingState) : SpacingKind → List (String × String) → SpacingState
  | SpacingKind.margin, o => { st with margin := o }
  | SpacingKind.padding, o => { st with padding := o }

/-- `item.direction || "top"`. -/
def SpacingItem.dirOrTop (it : SpacingItem) : String :=
  if it.direction = "" then "top" else it.direction

/-- `item.mapping.mappedValue || "None"`. -/
def SpacingItem.valOrNone (it : SpacingItem) : String :=
  if it.mapping.mappedValue = "" then "None" else it.mapping.mappedValue

/-- The unconditional part of the console line printed for one applied
contribution (line 685 of the source). -/
def spacingLogPrefix (it : SpacingItem) (dir val : String) : String :=
  "       → Mapping: \"" ++ it.prop.key ++ "\"=\"" ++ extractPropertyValue it.prop.value ++
    "\" → Spacing " ++ it.spacingType.str ++ "." ++ dir ++ "=\"" ++ val ++ "\""

/-- The `(was: ...)` suffix as rendered by the template string (JS renders an
absent old value as `undefined`). -/
def spacingWasSuffix (old : Option String) : String :=
  " (was: " ++ old.getD "undefined" ++ ")"

/-- The console line printed for one applied contribution (line 685 of the
source); the `(was: ...)` suffix is appended only when `oldVal !== val`. -/
def spacingLogLine (it : SpacingItem) (dir val : String) (old : Option String) : String :=
  spacingLogPrefix it dir val ++ (if old ≠ some val then spacingWasSuffix old else "")

/-- One iteration of the `for (const item of spacingPropertiesToMap)` loop:
overwrite the `(kind, side)` slot and produce the log line. -/
def applySpacingItem (st : SpacingState) (it : SpacingItem) : SpacingState × String :=
  let dir := it.dirOrTop
  let val := it.valOrNone
  let old := objGet (st.obj it.spacingType) dir
  (st.setObj it.spacingType (objSet (st.obj it.spacingType) dir val),
   spacingLogLine it dir val old)

/-- The whole overwrite loop, returning the final state and the log lines in
order. -/
def applySpacingItems : SpacingState → List SpacingItem → SpacingState × List String
  | st, [] => (st, [])
  | st, it :: rest =>
    let s := applySpacingItem st it
    let r := applySpacingItems s.1 rest
    (r.1, s.2 :: r.2)

/-- Reading `baseState.margin.top` etc. at the materialization sites (the key
is always present there; an absent key would render as `undefined`). -/
def matGet (o : List (String × String)) (k : String) : String :=
  (objGet o k).getD "undefined"

/-- The `addInnerProp` helper: skip `"None"`, otherwise append an inner
key/option-value pair to the compound. -/
def addInnerProp (acc : List (String × DesignValue)) (key val : String) :
    List (String × DesignValue) :=
  if val = "None" then acc else acc ++ [(key, DesignValue.option val)]

/-- The eight `addInnerProp` calls of the source in their exact order,
materializing the compound `Spacing` value. -/
def materializeSpacing (st : SpacingState) : List (String × DesignValue) :=
  let a1 := addInnerProp [] "margin-top" (matGet st.margin "top")
  let a2 := addInnerProp a1 "margin-right" (matGet st.margin "right")
  let a3 := addInnerProp a2 "margin-bottom" (matGet st.margin "bottom")
  let a4 := addInnerProp a3 "margin-left" (matGet st.margin "left")
  let a5 := addInnerProp a4 "padding-top" (matGet st.padding "top")
  let a6 := addInnerProp a5 "padding-right" (matGet st.padding "right")
  let a7 := addInnerProp a6 "padding-bottom" (matGet st.padding "bottom")
  addInnerProp a7 "padding-left" (matGet st.padding "left")

/-! ### The analysis pass of `processWidget` (lines 546-658) -/

/-- The per-widget context threaded through the analysis loop. -/
structure Ctx where
  lookup : List (String × PropertyMappingV2)
  names : List String
  widgetName : String
  widgetType : String
  docName : String
  moduleName : String

/-- The mutable analysis state of `processWidget` (counters, staged-mutation
lists, claimed targets, collected spacing properties, audit rows pushed so
far). -/
structure AnalysisState where
  props : Nat := 0
  mapped : Nat := 0
  removed : Nat := 0
  widgetPropsMapped : Nat := 0
  skipped : Nat := 0
  toModify : List (DesignPropertyValue × PropertyMappingV2) := []
  toRemove : List DesignPropertyValue := []
  toSetWidgetProp : List (DesignPropertyValue × PropertyMappingV2) := []
  skippedProps : List (String × String × String) := []
  mappedTargetProperties : List String := []
  spacingPropertiesToMap : List SpacingItem := []
  csv : List CsvDataRow := []

/-- The initial analysis state. -/
def initState : AnalysisState := {}

/-- Reason recorded for a property with no applicable rule. -/
def noMappingReason : String :=
  "No mapping defined for this property/value/element combination"

/-- Reason recorded for a destination-collision removal (the source
interpolates the target between single quotes). -/
def collisionReason (targetProp : String) : String :=
  "Duplicate target \x27" ++ targetProp ++ "\x27 - collision with prioritized mapping"

/-- Common audit-row fields. -/
def baseRow (c : Ctx) (propKey propValue : String) (a : CsvAction) : CsvDataRow :=
  { element := c.widgetName, elementType := c.widgetType, document := c.docName,
    module := c.moduleName, property := propKey, value := propValue, action := a }

/-- The `removed` row pushed for a `remove`-action rule. -/
def mkRemovedRow (c : Ctx) (propKey propValue : String) (m : PropertyMappingV2) : CsvDataRow :=
  { baseRow c propKey propValue CsvAction.removed with
    reason := if m._reason = "" then "No Web equivalent" else m._reason }

/-- The `removed` row pushed for a duplicate-target collision. -/
def mkCollisionRow (c : Ctx) (propKey propValue targetProp : String) : CsvDataRow :=
  { baseRow c propKey propValue CsvAction.removed with reason := collisionReason targetProp }

/-- The `mapped` row pushed for a non-spacing `map`-action rule. -/
def mkMappedRow (c : Ctx) (propKey propValue : String) (m : PropertyMappingV2) : CsvDataRow :=
  { baseRow c propKey propValue CsvAction.mapped with
    mappedProperty := m.mappedProperty, mappedValue := m.mappedValue }

/-- The `widgetPropertySet` row pushed for a `mapToWidgetProperty`-action rule. -/
def mkWidgetRow (c : Ctx) (propKey propValue : String) (m : PropertyMappingV2) : CsvDataRow :=
  { baseRow c propKey propValue CsvAction.widgetPropertySet with
    mappedProperty := m.widgetProperty, mappedValue := m.widgetValue,
    reason := if m._reason = "" then "Mapped to widget property" else m._reason }

/-- The `spacingType` ternary at line 590. -/
def spacingKindOf (m : PropertyMappingV2) : SpacingKind :=
  if m.mappedType = "padding" then SpacingKind.padding else SpacingKind.margin

/-- One iteration of the analysis loop (`for (const prop of propertiesList)`,
lines 546-658): skip falsy keys, names outside the filter set and empty
extracted values; count the property; resolve the rule and dispatch on its
action, with the duplicate-target check for non-spacing `map` rules. -/
def analyzeStep (c : Ctx) (st : AnalysisState) (prop : DesignPropertyValue) : AnalysisState :=
  if prop.key = "" then st
  else if prop.key ∉ c.names then st
  else
    let propValue := extractPropertyValue prop.value
    if propValue = "" then st
    else
      let st1 := { st with props := st.props + 1 }
      match findMapping c.lookup prop.key propValue c.widgetType with
      | Option.none =>
        { st1 with skipped := st1.skipped + 1,
                   skippedProps := st1.skippedProps ++ [(prop.key, propValue, noMappingReason)] }
      | some m =>
        match m.action with
        | MappingAction.remove =>
          { st1 with toRemove := st1.toRemove ++ [prop], removed := st1.removed + 1,
                     csv := st1.csv ++ [mkRemovedRow c prop.key propValue m] }
        | MappingAction.map =>
          if m.mappedProperty = "Spacing" ∧ m.mappedDirection ≠ "" then
            { st1 with spacingPropertiesToMap := st1.spacingPropertiesToMap ++
                [{ prop := prop, mapping := m, direction := m.mappedDirection,
                   spacingType := spacingKindOf m }] }
          else
            let targetProp := m.mappedProperty
            if targetProp ≠ "" ∧ targetProp ∈ st1.mappedTargetProperties then
              { st1 with toRemove := st1.toRemove ++ [prop], removed := st1.removed + 1,
                         csv := st1.csv ++ [mkCollisionRow c prop.key propValue targetProp] }
            else
              let st2 :=
                if targetProp ≠ "" then
                  { st1 with mappedTargetProperties := setAdd st1.mappedTargetProperties targetProp }
                else st1
              { st2 with toModify := st2.toModify ++ [(prop, m)], mapped := st2.mapped + 1,
                         csv := st2.csv ++ [mkMappedRow c prop.key propValue m] }
        | MappingAction.mapToWidgetProperty =>
          { st1 with toSetWidgetProp := st1.toSetWidgetProp ++ [(prop, m)],
                     widgetPropsMapped := st1.widgetPropsMapped + 1,
                     csv := st1.csv ++ [mkWidgetRow c prop.key propValue m] }

/-- The whole analysis loop over the property list. -/
def analyzeProps (c : Ctx) : AnalysisState → List DesignPropertyValue → AnalysisState
  | st, [] => st
  | st, p :: ps => analyzeProps c (analyzeStep c st p) ps

/-! ### The mutation pass of `processWidget` (lines 660-842) -/

/-- `applyMapping`: bail out when `mappedProperty` or `mappedValue` is falsy,
otherwise rewrite the property's key and replace its value with a fresh
option value — applied here to the occurrence of the object (identified by
`id`) in the live list. -/
def applyMappingToList (props : List DesignPropertyValue) (pid : Nat) (m : PropertyMappingV2) :
    List DesignPropertyValue :=
  if m.mappedProperty = "" ∨ m.mappedValue = "" then props
  else props.map (fun q =>
    if q.id = pid then { id := q.id, key := m.mappedProperty,
                         value := DesignValue.option m.mappedValue }
    else q)

/-- `buttonStyleMap`'s keys. -/
def buttonStyles : List String :=
  ["Default", "Inverse", "Primary", "Info", "Success", "Warning", "Danger"]

/-- `applyWidgetPropertyMapping`: `Option.none` models a thrown error (missing
fields, or an unknown `buttonStyle` value on an `ActionButton`); the generic
fallback sets the named widget attribute. -/
def applyWidgetPropertyMapping (w : Widget) (m : PropertyMappingV2) : Option Widget :=
  if m.widgetProperty = "" ∨ m.widgetValue = "" then Option.none
  else if m.widgetProperty = "buttonStyle" ∧ w.isActionButton then
    if m.widgetValue ∈ buttonStyles then
      some { w with attrs := objSet w.attrs "buttonStyle" m.widgetValue }
    else Option.none
  else some { w with attrs := objSet w.attrs m.widgetProperty m.widgetValue }

/-- Identity of the model element freshly created by
`createInAppearanceUnderDesignProperties`: a new object, distinct from every
element of the list. -/
def freshId (props : List DesignPropertyValue) : Nat :=
  props.foldl (fun a p => max a p.id) 0 + 1

/-- The `mapped` audit row pushed for each merged spacing source property
(lines 737-749). -/
def csvSpacingRow (c : Ctx) (it : SpacingItem) : CsvDataRow :=
  { element := c.widgetName, elementType := c.widgetType, document := c.docName,
    module := c.moduleName, property := it.prop.key,
    value := extractPropertyValue it.prop.value, action := CsvAction.mapped,
    mappedProperty := "Spacing",
    mappedValue := it.spacingType.str ++ "." ++ it.direction ++ "=" ++ it.mapping.mappedValue }

/-- The per-widget context as set up at the top of `processWidget`
(`widgetName || 'Unnamed'`, resolved widget type). -/
def processCtx (lookup : List (String × PropertyMappingV2)) (names : List String)
    (docName moduleName : String) (w : Widget) : Ctx :=
  { lookup := lookup, names := names,
    widgetName := if w.name = "" then "Unnamed" else w.name, widgetType := w.tpe,
    docName := docName, moduleName := moduleName }

/-- The spacing aggregation block of `processWidget` (lines 660-750): seed the
state, apply the contributions, materialize a fresh `Spacing` property (the
SDK factory appends it to the property list on creation), drop a pre-existing
`Spacing` property by identity, and produce the extra `mapped` count and the
per-contribution `mapped` audit rows. -/
def spacingPhase (c : Ctx) (props : List DesignPropertyValue)
    (existing : Option DesignPropertyValue) (items : List SpacingItem) :
    List DesignPropertyValue × Nat × List CsvDataRow :=
  if items.isEmpty then (props, 0, [])
  else
    let base := seedSpacingState existing
    let merged := (applySpacingItems base items).1
    let newProp : DesignPropertyValue :=
      { id := freshId props, key := "Spacing",
        value := DesignValue.compound (materializeSpacing merged) }
    let props1 := props ++ [newProp]
    let props2 :=
      match existing with
      | some sp => props1.filter (fun p => p.id != sp.id)
      | Option.none => props1
    (props2, items.length, items.map (csvSpacingRow c))

/-- The `applyMapping` execution loop (lines 799-808). -/
def modifyPhase (toModify : List (DesignPropertyValue × PropertyMappingV2))
    (props : List DesignPropertyValue) : List DesignPropertyValue :=
  toModify.foldl (fun ps pm => applyMappingToList ps pm.1.id pm.2) props

/-- The removal loop (lines 810-828): delete, by identity, every queued
removal and every merged spacing source property. -/
def removalPhase (removalIds : List Nat) (props : List DesignPropertyValue) :
    List DesignPropertyValue :=
  props.filter (fun p => !(removalIds.contains p.id))

/-- The widget-property execution loop (lines 831-842): apply each redirect
and, when it does not throw, delete its source design property. -/
def widgetPhase (ts : List (DesignPropertyValue × PropertyMappingV2)) (w : Widget)
    (props : List DesignPropertyValue) : Widget × List DesignPropertyValue :=
  ts.foldl
    (fun (acc : Widget × List DesignPropertyValue) pm =>
      match applyWidgetPropertyMapping acc.1 pm.2 with
      | Option.none => acc
      | some w2 => (w2, acc.2.filter (fun p => p.id != pm.1.id)))
    (w, props)

/-- `processWidget`: early outs for empty property lists and non-target
element types; analysis pass; spacing aggregation; then the mutation passes:
rewrites, removals (queued removals plus the merged spacing sources), and
widget-property redirections.  Returns the mutated widget, the per-widget
counters and the audit rows pushed.  Console output is not modelled. -/
def processWidget (lookup : List (String × PropertyMappingV2)) (names : List String)
    (docName moduleName : String) (w : Widget) :
    Widget × ProcessingResult × List CsvDataRow :=
  if w.designProperties.isEmpty then (w, {}, [])
  else if w.tpe ∉ TARGET_ELEMENT_TYPES then (w, {}, [])
  else
    let c := processCtx lookup names docName moduleName w
    let propertiesList := w.designProperties
    let existingSpacingProp := propertiesList.find? (fun p => p.key == "Spacing")
    let st := analyzeProps c initState propertiesList
    let items := st.spacingPropertiesToMap
    let spacingOut := spacingPhase c propertiesList existingSpacingProp items
    let props3 := modifyPhase st.toModify spacingOut.1
    let removalIds := (st.toRemove ++ items.map (fun it => it.prop)).map (fun p => p.id)
    let props4 := removalPhase removalIds props3
    let wp := widgetPhase st.toSetWidgetProp w props4
    let result : ProcessingResult :=
      { props := st.props, mapped := st.mapped + spacingOut.2.1, removed := st.removed,
        widgetPropsMapped := st.widgetPropsMapped, skipped := st.skipped }
    ({ wp.1 with designProperties := wp.2 }, result, st.csv ++ spacingOut.2.2)

/-! ### Orchestrator (`processDocumentCollection` aggregation and `main`) -/

/-- The per-widget aggregation inside `document.traverse` (lines 462-473):
totals are accumulated only when the widget contributed properties, and —
as in the source — `widgetPropsMapped` is not accumulated there.  The
document/module iteration and the page-level unconditional removal are outside
the claims under study and are abstracted to a single widget collection. -/
def processCollection (lookup : List (String × PropertyMappingV2)) (names : List String)
    (docName moduleName : String) :
    List Widget → List Widget × ProcessingResult × List CsvDataRow
  | [] => ([], {}, [])
  | w :: ws =>
    let r1 := processWidget lookup names docName moduleName w
    let rest := processCollection lookup names docName moduleName ws
    let t := rest.2.1
    let t2 :=
      if r1.2.1.props > 0 then
        { t with widgets := t.widgets + 1, props := t.props + r1.2.1.props,
                 mapped := t.mapped + r1.2.1.mapped, removed := t.removed + r1.2.1.removed,
                 skipped := t.skipped + r1.2.1.skipped }
      else t
    (r1.1 :: rest.1, t2, r1.2.2 ++ rest.2.2)

/-- The outcome of one run of `main`: the in-memory working-copy state after
processing, the printed totals, the audit rows, and what (if anything) was
committed to the persistence backend. -/
structure RunOutcome where
  finalWidgets : List Widget
  totals : ProcessingResult
  csv : List CsvDataRow
  committed : Option String

/-- The generated commit message (line 360). -/
def commitMessage (totalModified : Nat) (t : ProcessingResult) : String :=
  "Remediated " ++ toString totalModified ++ " Native design properties (" ++
    toString t.mapped ++ " design props mapped, " ++ toString t.widgetPropsMapped ++
    " widget props set, " ++ toString t.removed ++ " removed)"

/-- `main` after the model is loaded: process everything (mutating the
in-memory working copy as it goes), then — only when `totalModified > 0` —
ask for confirmation; on decline return without committing, on accept commit
with the generated message.  `shouldCommit` is the operator's answer. -/
def runMain (lookup : List (String × PropertyMappingV2)) (names : List String)
    (docName moduleName : String) (ws : List Widget) (shouldCommit : Bool) : RunOutcome :=
  let out := processCollection lookup names docName moduleName ws
  let totals := out.2.1
  let totalModified := totals.mapped + totals.removed + totals.widgetPropsMapped
  { finalWidgets := out.1, totals := totals, csv := out.2.2,
    committed :=
      if totalModified > 0 then
        if shouldCommit then some (commitMessage totalModified totals) else Option.none
      else Option.none }

/-- The in-memory state of the working copy at the moment `askConfirmation` is
reached in `main` (all processing, including the mutation passes of
`processWidget`, has already run; the confirmation answer has not been read). -/
def widgetsAtConfirmation (lookup : List (String × PropertyMappingV2)) (names : List String)
    (docName moduleName : String) (ws : List Widget) : List Widget :=
  (processCollection lookup names docName moduleName ws).1

/-! ## Helper lemmas: JS map / object semantics -/

theorem jsGet_jsSet_self {α : Type} (o : List (String × α)) (k : String) (v : α) :
    jsGet (jsSet o k v) k = some v := by
  unfold jsSet
  by_cases h : o.any (fun e => e.1 == k)
  · rw [if_pos h]
    unfold jsGet
    rw [List.find?_map]
    have hcomp : ((fun e => e.1 == k) ∘ fun (e : String × α) => if e.1 == k then (k, v) else e) =
        fun (e : String × α) => e.1 == k := by
      funext x
      by_cases hx : x.1 = k
      · simp [hx]
      · simp [hx]
    rw [hcomp]
    obtain ⟨e, he, hpe⟩ := List.any_eq_true.mp h
    cases hf : List.find? (fun e => e.1 == k) o with
    | none => exact absurd (List.find?_eq_none.mp hf e he) (by simp [hpe])
    | some a =>
      have hpa1 : a.1 = k := by
        have := List.find?_some hf
        simpa using this
      simp [hpa1]
  · rw [if_neg h]
    unfold jsGet
    rw [List.find?_append]
    have hnone : List.find? (fun e => e.1 == k) o = none := by
      rw [List.find?_eq_none]
      intro x hx hpx
      exact h (List.any_eq_true.mpr ⟨x, hx, hpx⟩)
    rw [hnone]
    simp [List.find?]

theorem jsGet_jsSet_other {α : Type} (o : List (String × α)) (k k' : String) (v : α)
    (h : k' ≠ k) : jsGet (jsSet o k v) k' = jsGet o k' := by
  unfold jsSet
  by_cases ha : o.any (fun e => e.1 == k)
  · rw [if_pos ha]
    unfold jsGet
    rw [List.find?_map]
    have hcomp : ((fun e => e.1 == k') ∘ fun (e : String × α) => if e.1 == k then (k, v) else e) =
        fun (e : String × α) => e.1 == k' := by
      funext x
      by_cases hx : x.1 = k
      · simp [hx]
      · simp [hx]
    rw [hcomp]
    cases hf : List.find? (fun e => e.1 == k') o with
    | none => simp
    | some a =>
      have ha1 : a.1 = k' := by
        have := List.find?_some hf
        simpa using this
      have hak : ¬a.1 = k := by
        rw [ha1]
        exact h
      simp [hak]
  · rw [if_neg ha]
    unfold jsGet
    rw [List.find?_append]
    cases hf : List.find? (fun e => e.1 == k') o with
    | some a => simp
    | none =>
      have hsing : List.find? (fun e => e.1 == k') [(k, v)] = none := by
        rw [List.find?_eq_none]
        intro x hx hpx
        simp at hx
        subst hx
        exact h (beq_iff_eq.mp hpx).symm
      simp [hsing]

theorem jsGet_jsSetAll {α : Type} (src : List (String × α)) (dst : List (String × α))
    (k : String) :
    jsGet (jsSetAll dst src) k =
      match src.reverse.find? (fun e => e.1 == k) with
      | some e => some e.2
      | Option.none => jsGet dst k := by
  induction src generalizing dst with
  | nil => simp [jsSetAll]
  | cons e es ih =>
    show jsGet (jsSetAll (jsSet dst e.1 e.2) es) k = _
    rw [ih, List.reverse_cons, List.find?_append]
    cases hf : List.find? (fun x => x.1 == k) es.reverse with
    | some a => simp
    | none =>
      simp only [Option.none_or]
      by_cases he : e.1 = k
      · have h1 : List.find? (fun x : String × α => x.1 == k) [e] = some e :=
          List.find?_cons_of_pos [] (by simp [he])
        rw [h1, ← he]
        exact jsGet_jsSet_self dst e.1 e.2
      · have h1 : List.find? (fun x : String × α => x.1 == k) [e] = none := by
          rw [List.find?_eq_none]
          intro x hx hpx
          simp at hx
          subst hx
          exact he (by simpa using hpx)
        rw [h1]
        exact jsGet_jsSet_other dst e.1 k e.2 (fun hh => he hh.symm)

/-! ## C10: duplicate composite keys — the later rule wins -/

/-- C10: when non-comment rule entries produce the same composite lookup key,
the rule index answers with the entry written last, i.e. reading any key from
`MAPPINGS_LOOKUP` returns the value of the last build-loop write with that key
(the rule appearing later in the file); hence resolution deterministically
returns the last-loaded rule for a duplicated key. -/
theorem C10_last_loaded_rule_wins (file : List PropertyMappingV2) (k : String) :
    mapGet (mappingsLookup file) k =
      ((flatEntriesOf file).reverse.find? (fun e => e.1 == k)).map (fun e => e.2) := by
  unfold mapGet mappingsLookup
  rw [jsGet_jsSetAll]
  cases hf : (flatEntriesOf file).reverse.find? (fun e => e.1 == k) with
  | some a => simp
  | none => simp [jsGet]

/-! ## C4: rule resolution, specific element type then wildcard -/

/-- C4: `findMapping` returns the rule indexed under the exact
`(propertyName, value, elementType)` key when one exists, otherwise the rule
under the wildcard `(propertyName, value, "*")` key (which is `Option.none`
when absent — treated by every caller as "no applicable rule", not an
error); there is no further fallback. -/
theorem C4_specific_then_wildcard (lookup : List (String × PropertyMappingV2))
    (p v t : String) :
    (∀ m, mapGet lookup (mkKey p v t) = some m → findMapping lookup p v t = some m) ∧
    (mapGet lookup (mkKey p v t) = Option.none →
      findMapping lookup p v t = mapGet lookup (mkKey p v "*")) := by
  constructor
  · intro m h
    unfold findMapping
    rw [h]
  · intro h
    unfold findMapping
    rw [h]

/-- A specific rule used by concrete examples below. -/
def ruleDivMap : PropertyMappingV2 :=
  { property := "Justify content", value := "Center", elementTypes := ["DivContainer"],
    action := MappingAction.map, mappedProperty := "Align content", mappedValue := "Center" }

/-- A wildcard rule used by concrete examples below. -/
def ruleAnyRemove : PropertyMappingV2 :=
  { property := "Justify content", value := "Center", elementTypes := ["*"],
    action := MappingAction.remove, _reason := "No Web equivalent" }

/-- A two-rule mappings file used by concrete examples below. -/
def demoFile : List PropertyMappingV2 := [ruleDivMap, ruleAnyRemove]

/-- The lookup map built from `demoFile`. -/
def demoLookup : List (String × PropertyMappingV2) := mappingsLookup demoFile

theorem C4_specific_then_wildcard_witness :
    findMapping demoLookup "Justify content" "Center" "DivContainer" = some ruleDivMap ∧
    findMapping demoLookup "Justify content" "Center" "ListView" = some ruleAnyRemove := by
  constructor
  · exact (C4_specific_then_wildcard demoLookup "Justify content" "Center" "DivContainer").1
      ruleDivMap rfl
  · have h := (C4_specific_then_wildcard demoLookup "Justify content" "Center" "ListView").2 rfl
    rw [h]
    rfl

/-! ## C9: empty extracted values are skipped before any rule lookup -/

/-- Helper: the three silent `continue`s at the top of the analysis loop leave
the whole analysis state untouched. -/
theorem analyzeStep_silent (c : Ctx) (st : AnalysisState) (p : DesignPropertyValue)
    (h : p.key = "" ∨ p.key ∉ c.names ∨ extractPropertyValue p.value = "") :
    analyzeStep c st p = st := by
  unfold analyzeStep
  by_cases h1 : p.key = ""
  · rw [if_pos h1]
  · rw [if_neg h1]
    by_cases h2 : p.key ∉ c.names
    · rw [if_pos h2]
    · rw [if_neg h2]
      have h3 : extractPropertyValue p.value = "" := by tauto
      simp [h3]

/-- C9: a design property whose extracted value normalizes to the empty string
(a `null`/absent value, or an option value with an empty option) is skipped
before any rule lookup: the analysis state — property total, every counter,
every staged-mutation list, and the audit rows — is entirely unchanged,
whatever rules exist for the property's name. -/
theorem C9_empty_value_silent (c : Ctx) (st : AnalysisState) (p : DesignPropertyValue)
    (h : extractPropertyValue p.value = "") :
    analyzeStep c st p = st :=
  analyzeStep_silent c st p (Or.inr (Or.inr h))

/-- A context over `demoFile` used by concrete examples below. -/
def demoCtx : Ctx :=
  { lookup := demoLookup, names := mappedPropertyNames demoFile, widgetName := "W",
    widgetType := "DivContainer", docName := "Doc", moduleName := "Mod" }

theorem C9_empty_value_silent_witness :
    analyzeStep demoCtx initState
      { id := 1, key := "Justify content", value := DesignValue.option "" } = initState ∧
    "Justify content" ∈ demoCtx.names :=
  ⟨C9_empty_value_silent demoCtx initState
      { id := 1, key := "Justify content", value := DesignValue.option "" } rfl,
   by decide⟩

/-! ## Spacing-state helper lemmas -/

/-- The eight `(kind, side)` slots in the order the source materializes them. -/
def spacingSlots : List (SpacingKind × String) :=
  [(SpacingKind.margin, "top"), (SpacingKind.margin, "right"), (SpacingKind.margin, "bottom"),
   (SpacingKind.margin, "left"), (SpacingKind.padding, "top"), (SpacingKind.padding, "right"),
   (SpacingKind.padding, "bottom"), (SpacingKind.padding, "left")]

/-- The eight well-formed `kind-side` compound keys. -/
def spacingKeys : List String := spacingSlots.map (fun sl => sl.1.str ++ "-" ++ sl.2)

/-- Whether one collected spacing item writes the `(kind, side)` slot. -/
def targetsSlot (it : SpacingItem) (k : SpacingKind) (s : String) : Bool :=
  decide (it.spacingType = k) && decide (it.dirOrTop = s)

theorem obj_setObj_self (st : SpacingState) (k : SpacingKind) (o : List (String × String)) :
    (st.setObj k o).obj k = o := by
  cases k <;> rfl

theorem obj_setObj_other (st : SpacingState) (k k' : SpacingKind) (o : List (String × String))
    (h : k' ≠ k) : (st.setObj k o).obj k' = st.obj k' := by
  cases k <;> cases k' <;> first | rfl | exact absurd rfl h

theorem applySpacingItem_obj_untargeted (st : SpacingState) (it : SpacingItem) (k : SpacingKind)
    (s : String) (h : targetsSlot it k s = false) :
    objGet (((applySpacingItem st it).1).obj k) s = objGet (st.obj k) s := by
  unfold applySpacingItem
  by_cases hk : it.spacingType = k
  · have hd : it.dirOrTop ≠ s := by
      intro hds
      rw [targetsSlot, hk, hds] at h
      simp at h
    rw [hk, obj_setObj_self]
    unfold objGet objSet
    exact jsGet_jsSet_other _ _ _ _ (fun hh => hd hh.symm)
  · rw [obj_setObj_other _ _ _ _ (fun hh => hk hh.symm)]

theorem applySpacingItem_obj_targeted (st : SpacingState) (it : SpacingItem) :
    objGet (((applySpacingItem st it).1).obj it.spacingType) it.dirOrTop =
      some it.valOrNone := by
  unfold applySpacingItem
  rw [obj_setObj_self]
  exact jsGet_jsSet_self _ _ _

theorem applySpacingItems_obj_untargeted (base : SpacingState) (items : List SpacingItem)
    (k : SpacingKind) (s : String) (h : ∀ it ∈ items, targetsSlot it k s = false) :
    objGet (((applySpacingItems base items).1).obj k) s = objGet (base.obj k) s := by
  induction items generalizing base with
  | nil => rfl
  | cons it rest ih =>
    show objGet (((applySpacingItems (applySpacingItem base it).1 rest).1).obj k) s = _
    rw [ih _ (fun x hx => h x (List.mem_cons_of_mem _ hx))]
    exact applySpacingItem_obj_untargeted base it k s (h it (List.mem_cons_self _ _))

/-- The `kind-side` key of a slot. -/
def slotKey (sl : SpacingKind × String) : String := sl.1.str ++ "-" ++ sl.2

theorem addInnerProp_eq (acc : List (String × DesignValue)) (key val : String) :
    addInnerProp acc key val =
      acc ++ (if val = "None" then [] else [(key, DesignValue.option val)]) := by
  unfold addInnerProp
  split_ifs <;> simp

theorem filterNone_map_cons (e : String × String) (es : List (String × String)) :
    (((e :: es).filter (fun x => decide (x.2 ≠ "None"))).map
        (fun x => (x.1, DesignValue.option x.2))) =
      (if e.2 = "None" then [] else [(e.1, DesignValue.option e.2)]) ++
        ((es.filter (fun x => decide (x.2 ≠ "None"))).map
          (fun x => (x.1, DesignValue.option x.2))) := by
  by_cases he : e.2 = "None" <;> simp [List.filter_cons, he]

theorem materializeSpacing_eq_filter (st : SpacingState) :
    materializeSpacing st =
      ((spacingSlots.map (fun sl => (slotKey sl, matGet (st.obj sl.1) sl.2))).filter
          (fun e => decide (e.2 ≠ "None"))).map (fun e => (e.1, DesignValue.option e.2)) := by
  have hmap : spacingSlots.map (fun sl => (slotKey sl, matGet (st.obj sl.1) sl.2)) =
      [("margin-top", matGet st.margin "top"), ("margin-right", matGet st.margin "right"),
       ("margin-bottom", matGet st.margin "bottom"), ("margin-left", matGet st.margin "left"),
       ("padding-top", matGet st.padding "top"), ("padding-right", matGet st.padding "right"),
       ("padding-bottom", matGet st.padding "bottom"),
       ("padding-left", matGet st.padding "left")] := rfl
  rw [hmap]
  simp only [filterNone_map_cons, List.filter_nil, List.map_nil, List.append_nil]
  simp only [materializeSpacing, addInnerProp_eq, List.nil_append, List.append_assoc]

/-! ## C5: no "None" slot is ever materialized -/

/-- C5: the materialized compound `Spacing` value is exactly the list of the
eight slots, in fixed order, restricted to those whose final value is not the
neutral `"None"` (each as a `kind-side` key with an option value); in
particular no `"None"` entry is ever written, and a fully-absent box model
materializes as the empty compound. -/
theorem C5_none_slots_omitted (st : SpacingState) :
    materializeSpacing st =
      ((spacingSlots.map (fun sl => (slotKey sl, matGet (st.obj sl.1) sl.2))).filter
          (fun e => decide (e.2 ≠ "None"))).map (fun e => (e.1, DesignValue.option e.2)) ∧
    materializeSpacing initialSpacingState = [] :=
  ⟨materializeSpacing_eq_filter st, rfl⟩

/-! ## C3 helpers: canonical shape of parsed spacing layers -/

/-- The four-sided object literal. -/
def canonObj (a b c d : String) : List (String × String) :=
  [("top", a), ("right", b), ("bottom", c), ("left", d)]

/-- Both layers have exactly the four canonical side keys, in order. -/
def canonState (st : SpacingState) : Prop :=
  (∃ a b c d, st.margin = canonObj a b c d) ∧ (∃ a b c d, st.padding = canonObj a b c d)

theorem canonState_initial : canonState initialSpacingState :=
  ⟨⟨"None", "None", "None", "None", rfl⟩, ⟨"None", "None", "None", "None", rfl⟩⟩

theorem parseSpacingEntry_canon (st : SpacingState) (key : String) (v : DesignValue)
    (hc : canonState st) : canonState (parseSpacingEntry st key v) := by
  obtain ⟨⟨a, b, c, d, hm⟩, ⟨e, f, g, i, hp⟩⟩ := hc
  unfold parseSpacingEntry
  by_cases h0 : key = ""
  · rw [if_pos h0]
    exact ⟨⟨a, b, c, d, hm⟩, ⟨e, f, g, i, hp⟩⟩
  · rw [if_neg h0]
    cases v with
    | null => exact ⟨⟨a, b, c, d, hm⟩, ⟨e, f, g, i, hp⟩⟩
    | toggle => exact ⟨⟨a, b, c, d, hm⟩, ⟨e, f, g, i, hp⟩⟩
    | compound ps => exact ⟨⟨a, b, c, d, hm⟩, ⟨e, f, g, i, hp⟩⟩
    | option o =>
      dsimp only
      split_ifs
      · exact ⟨⟨a, b, c, d, hm⟩, ⟨e, f, g, i, hp⟩⟩
      · exact ⟨⟨o, b, c, d, by rw [hm]; rfl⟩, ⟨e, f, g, i, hp⟩⟩
      · exact ⟨⟨a, o, c, d, by rw [hm]; rfl⟩, ⟨e, f, g, i, hp⟩⟩
      · exact ⟨⟨a, b, o, d, by rw [hm]; rfl⟩, ⟨e, f, g, i, hp⟩⟩
      · exact ⟨⟨a, b, c, o, by rw [hm]; rfl⟩, ⟨e, f, g, i, hp⟩⟩
      · exact ⟨⟨a, b, c, d, hm⟩, ⟨o, f, g, i, by rw [hp]; rfl⟩⟩
      · exact ⟨⟨a, b, c, d, hm⟩, ⟨e, o, g, i, by rw [hp]; rfl⟩⟩
      · exact ⟨⟨a, b, c, d, hm⟩, ⟨e, f, o, i, by rw [hp]; rfl⟩⟩
      · exact ⟨⟨a, b, c, d, hm⟩, ⟨e, f, g, o, by rw [hp]; rfl⟩⟩
      · exact ⟨⟨a, b, c, d, hm⟩, ⟨e, f, g, i, hp⟩⟩

theorem parse_fold_canon (entries : List (String × DesignValue)) (st : SpacingState)
    (hc : canonState st) :
    canonState (entries.foldl (fun s e => parseSpacingEntry s e.1 e.2) st) := by
  induction entries generalizing st with
  | nil => exact hc
  | cons e es ih => exact ih _ (parseSpacingEntry_canon _ _ _ hc)

theorem parseSpacingState_canon (sp : DesignPropertyValue) (st : SpacingState)
    (hp : parseSpacingState (some sp) = some st) : canonState st := by
  obtain ⟨pid, pkey, pval⟩ := sp
  cases pval with
  | compound entries =>
    simp only [parseSpacingState, Option.some.injEq] at hp
    rw [← hp]
    exact parse_fold_canon _ _ canonState_initial
  | null =>
    simp only [parseSpacingState] at hp
    exact absurd hp (by simp)
  | option o =>
    simp only [parseSpacingState] at hp
    exact absurd hp (by simp)
  | toggle =>
    simp only [parseSpacingState] at hp
    exact absurd hp (by simp)

theorem objAssign_init_canon (a b c d : String) :
    objAssign initialSpacingObj (canonObj a b c d) = canonObj a b c d := rfl

theorem seedSpacingState_of_parse (sp : DesignPropertyValue) (st : SpacingState)
    (hp : parseSpacingState (some sp) = some st) : seedSpacingState (some sp) = st := by
  obtain ⟨⟨a, b, c, d, hm⟩, ⟨e, f, g, i, hpd⟩⟩ := parseSpacingState_canon sp st hp
  unfold seedSpacingState
  simp only [hp]
  cases st with
  | mk sm sp2 =>
    simp only at hm hpd
    simp [hm, hpd, initialSpacingState, objAssign_init_canon]

theorem parseSpacingEntry_ignored (st : SpacingState) (key : String) (v : DesignValue)
    (hv : ∀ o, v = DesignValue.option o → o = "" ∨ key ∉ spacingKeys) :
    parseSpacingEntry st key v = st := by
  unfold parseSpacingEntry
  by_cases h0 : key = ""
  · rw [if_pos h0]
  · rw [if_neg h0]
    cases v with
    | null => rfl
    | toggle => rfl
    | compound ps => rfl
    | option o =>
      rcases hv o rfl with ho | hk
      · simp [ho]
      · have h1 : key ≠ "margin-top" := fun hh => hk (by rw [hh]; decide)
        have h2 : key ≠ "margin-right" := fun hh => hk (by rw [hh]; decide)
        have h3 : key ≠ "margin-bottom" := fun hh => hk (by rw [hh]; decide)
        have h4 : key ≠ "margin-left" := fun hh => hk (by rw [hh]; decide)
        have h5 : key ≠ "padding-top" := fun hh => hk (by rw [hh]; decide)
        have h6 : key ≠ "padding-right" := fun hh => hk (by rw [hh]; decide)
        have h7 : key ≠ "padding-bottom" := fun hh => hk (by rw [hh]; decide)
        have h8 : key ≠ "padding-left" := fun hh => hk (by rw [hh]; decide)
        simp [h1, h2, h3, h4, h5, h6, h7, h8]

/-! ## C3: spacing aggregation preserves pre-existing untargeted sides -/

/-- C3: (i) aggregation seeds its 8-slot state exactly with the parsed
existing sides; (ii) a contribution touches only its own `(kind, side)` slot,
so every slot targeted by no contribution keeps its seeded value; (iii) hence
a pre-existing side that is not `"None"` and is untargeted appears unchanged
in the final materialized compound; (iv) existing compound entries whose key
is not a well-formed nonempty `kind-side` option entry are ignored without
effect (and without error — parsing is total). -/
theorem C3_untargeted_sides_preserved :
    (∀ (sp : DesignPropertyValue) (st : SpacingState),
        parseSpacingState (some sp) = some st → seedSpacingState (some sp) = st) ∧
    (∀ (base : SpacingState) (items : List SpacingItem) (k : SpacingKind) (s : String),
        (∀ it ∈ items, targetsSlot it k s = false) →
        objGet (((applySpacingItems base items).1).obj k) s = objGet (base.obj k) s) ∧
    (∀ (existing : Option DesignPropertyValue) (items : List SpacingItem)
        (k : SpacingKind) (s v : String),
        (k, s) ∈ spacingSlots → (∀ it ∈ items, targetsSlot it k s = false) →
        matGet ((seedSpacingState existing).obj k) s = v → v ≠ "None" →
        (slotKey (k, s), DesignValue.option v) ∈
          materializeSpacing ((applySpacingItems (seedSpacingState existing) items).1)) ∧
    (∀ (st : SpacingState) (key : String) (v : DesignValue),
        (∀ o, v = DesignValue.option o → o = "" ∨ key ∉ spacingKeys) →
        parseSpacingEntry st key v = st) := by
  refine ⟨seedSpacingState_of_parse, applySpacingItems_obj_untargeted, ?_,
    parseSpacingEntry_ignored⟩
  intro existing items k s v hslot huntargeted hseed hne
  have hfinal : objGet (((applySpacingItems (seedSpacingState existing) items).1).obj k) s =
      objGet ((seedSpacingState existing).obj k) s :=
    applySpacingItems_obj_untargeted _ _ _ _ huntargeted
  have hmat : matGet (((applySpacingItems (seedSpacingState existing) items).1).obj k) s = v := by
    unfold matGet at hseed ⊢
    rw [hfinal]
    exact hseed
  rw [materializeSpacing_eq_filter]
  refine List.mem_map.mpr ⟨(slotKey (k, s), v), ?_, rfl⟩
  refine List.mem_filter.mpr ⟨?_, by simp [hne]⟩
  exact List.mem_map.mpr ⟨(k, s), hslot, by rw [hmat]⟩

/-- A pre-existing `Spacing` design property carrying `margin.top = Small`. -/
def spacingPropEx : DesignPropertyValue :=
  { id := 5, key := "Spacing",
    value := DesignValue.compound [("margin-top", DesignValue.option "Small")] }

/-- A mapping rule contributing `padding.left = Medium`. -/
def rulePaddingLeft : PropertyMappingV2 :=
  { property := "Native padding left", value := "Medium", elementTypes := ["*"],
    action := MappingAction.map, mappedProperty := "Spacing", mappedValue := "Medium",
    mappedDirection := "left", mappedType := "padding" }

/-- The collected spacing item for `rulePaddingLeft`. -/
def itemPaddingLeft : SpacingItem :=
  { prop := { id := 6, key := "Native padding left", value := DesignValue.option "Medium" },
    mapping := rulePaddingLeft, direction := "left", spacingType := SpacingKind.padding }

theorem C3_untargeted_sides_preserved_witness :
    (slotKey (SpacingKind.margin, "top"), DesignValue.option "Small") ∈
      materializeSpacing
        ((applySpacingItems (seedSpacingState (some spacingPropEx)) [itemPaddingLeft]).1) :=
  C3_untargeted_sides_preserved.2.2.1 (some spacingPropEx) [itemPaddingLeft]
    SpacingKind.margin "top" "Small" (by decide) (by decide) rfl (by decide)

/-! ## C8 helpers: overwrite semantics and log lines of the contribution loop -/

theorem targetsSlot_decomp (it : SpacingItem) (k : SpacingKind) (s : String)
    (h : targetsSlot it k s = true) : it.spacingType = k ∧ it.dirOrTop = s := by
  simpa [targetsSlot] using h

theorem applySpacingItems_obj (base : SpacingState) (items : List SpacingItem)
    (k : SpacingKind) (s : String) :
    objGet (((applySpacingItems base items).1).obj k) s =
      match items.reverse.find? (fun it => targetsSlot it k s) with
      | some it => some it.valOrNone
      | Option.none => objGet (base.obj k) s := by
  induction items generalizing base with
  | nil => simp [applySpacingItems]
  | cons it rest ih =>
    show objGet (((applySpacingItems (applySpacingItem base it).1 rest).1).obj k) s = _
    rw [ih, List.reverse_cons, List.find?_append]
    cases hf : rest.reverse.find? (fun x => targetsSlot x k s) with
    | some a => simp
    | none =>
      simp only [Option.none_or]
      by_cases ht : targetsSlot it k s = true
      · have h1 : List.find? (fun x => targetsSlot x k s) [it] = some it :=
          List.find?_cons_of_pos [] ht
        rw [h1]
        obtain ⟨hk, hd⟩ := targetsSlot_decomp it k s ht
        rw [← hk, ← hd]
        exact applySpacingItem_obj_targeted base it
      · have h1 : List.find? (fun x => targetsSlot x k s) [it] = none := by
          rw [List.find?_eq_none]
          intro x hx
          simp at hx
          subst hx
          exact ht
        rw [h1]
        exact applySpacingItem_obj_untargeted base it k s (by simpa using ht)

theorem applySpacingItems_logs_length (base : SpacingState) (items : List SpacingItem) :
    (applySpacingItems base items).2.length = items.length := by
  induction items generalizing base with
  | nil => rfl
  | cons it rest ih =>
    show ((applySpacingItem base it).2 ::
      (applySpacingItems (applySpacingItem base it).1 rest).2).length = _
    simp [ih]

theorem applySpacingItems_logs_get (base : SpacingState) (items : List SpacingItem)
    (i : Nat) (it : SpacingItem) (h : items[i]? = some it) :
    (applySpacingItems base items).2[i]? =
      some (spacingLogLine it it.dirOrTop it.valOrNone
        (objGet (((applySpacingItems base (items.take i)).1).obj it.spacingType)
          it.dirOrTop)) := by
  induction items generalizing base i with
  | nil => simp at h
  | cons a rest ih =>
    cases i with
    | zero =>
      simp only [List.getElem?_cons_zero, Option.some.injEq] at h
      subst h
      simp only [applySpacingItems, applySpacingItem, List.take_zero, List.getElem?_cons_zero]
    | succ j =>
      simp only [List.getElem?_cons_succ] at h
      rw [List.take_succ_cons]
      show ((applySpacingItem base a).2 ::
        (applySpacingItems (applySpacingItem base a).1 rest).2)[j + 1]? = _
      rw [List.getElem?_cons_succ]
      exact ih ((applySpacingItem base a).1) j h

theorem spacingLogLine_was_iff (it : SpacingItem) (dir val : String) (old : Option String) :
    (spacingLogLine it dir val old =
        spacingLogPrefix it dir val ++ spacingWasSuffix old) ↔ old ≠ some val := by
  unfold spacingLogLine
  constructor
  · intro heq hc
    rw [if_neg (fun hn => hn hc)] at heq
    have hlen := congrArg String.length heq
    rw [String.length_append, String.length_append] at hlen
    have h0 : ("" : String).length = 0 := rfl
    have hs : 0 < (spacingWasSuffix old).length := by
      unfold spacingWasSuffix
      rw [String.length_append, String.length_append]
      have h7 : (" (was: " : String).length = 7 := rfl
      omega
    omega
  · intro hne
    rw [if_pos hne]

/-! ## C8: later contributions overwrite the slot; the old value is logged
only when it differs -/

/-- C8 (amended): (i) applying the queued contributions in original property
processing order leaves each `(kind, side)` slot holding the value of the
last contribution targeting it (earlier ones are overwritten), the seeded
value when none targets it; (ii) every contribution produces exactly one log
line, (iii) the `i`-th log line is generated from the slot state reached
after the first `i` contributions (so the overwritten value is the one
captured); and (iv) a log line carries the `(was: ...)` suffix with the
overwritten value exactly when the previous value differs from the new one —
an identical overwrite is logged without its previous value. -/
theorem C8_overwrite_and_conditional_log :
    (∀ (base : SpacingState) (items : List SpacingItem) (k : SpacingKind) (s : String),
      objGet (((applySpacingItems base items).1).obj k) s =
        match items.reverse.find? (fun it => targetsSlot it k s) with
        | some it => some it.valOrNone
        | Option.none => objGet (base.obj k) s) ∧
    (∀ (base : SpacingState) (items : List SpacingItem),
      (applySpacingItems base items).2.length = items.length) ∧
    (∀ (base : SpacingState) (items : List SpacingItem) (i : Nat) (it : SpacingItem),
      items[i]? = some it →
      (applySpacingItems base items).2[i]? =
        some (spacingLogLine it it.dirOrTop it.valOrNone
          (objGet (((applySpacingItems base (items.take i)).1).obj it.spacingType)
            it.dirOrTop))) ∧
    (∀ (it : SpacingItem) (dir val : String) (old : Option String),
      (spacingLogLine it dir val old =
          spacingLogPrefix it dir val ++ spacingWasSuffix old) ↔ old ≠ some val) :=
  ⟨applySpacingItems_obj, applySpacingItems_logs_length, applySpacingItems_logs_get,
   spacingLogLine_was_iff⟩

theorem C8_overwrite_and_conditional_log_witness :
    (applySpacingItems initialSpacingState [itemPaddingLeft]).2[0]? =
      some (spacingLogLine itemPaddingLeft itemPaddingLeft.dirOrTop itemPaddingLeft.valOrNone
        (objGet (((applySpacingItems initialSpacingState
          ([itemPaddingLeft].take 0)).1).obj itemPaddingLeft.spacingType)
          itemPaddingLeft.dirOrTop)) :=
  C8_overwrite_and_conditional_log.2.2.1 initialSpacingState [itemPaddingLeft] 0
    itemPaddingLeft rfl

/-- A mapping rule contributing `margin.top = Small`. -/
def ruleMarginTop : PropertyMappingV2 :=
  { property := "Native margin top", value := "Small", elementTypes := ["*"],
    action := MappingAction.map, mappedProperty := "Spacing", mappedValue := "Small",
    mappedDirection := "top", mappedType := "margin" }

/-- The collected spacing item for `ruleMarginTop`. -/
def itemMarginTop : SpacingItem :=
  { prop := { id := 7, key := "Native margin top", value := DesignValue.option "Small" },
    mapping := ruleMarginTop, direction := "top", spacingType := SpacingKind.margin }

/-- C8 counterexample: with an existing `margin.top = Small` and a
contribution writing the identical `margin.top = Small`, the slot is
overwritten (old value `some "Small"`) but the emitted log line is exactly
the bare line without any `(was: ...)` part — the overwritten value is not
logged when the new value is identical, contradicting the claim that it is
logged "even when the new value is identical to the previous one". -/
theorem C8_counterexample :
    objGet ((seedSpacingState (some spacingPropEx)).obj SpacingKind.margin) "top" =
      some "Small" ∧
    (applySpacingItems (seedSpacingState (some spacingPropEx)) [itemMarginTop]).2 =
      [spacingLogPrefix itemMarginTop "top" "Small"] ∧
    (applySpacingItems (seedSpacingState (some spacingPropEx)) [itemMarginTop]).2 ≠
      [spacingLogPrefix itemMarginTop "top" "Small" ++ spacingWasSuffix (some "Small")] := by
  refine ⟨rfl, by decide, by decide⟩

/-! ## Analysis-loop predicates -/

/-- Placeholder rule (never inspected when the accompanying hit predicate holds). -/
def defaultMapping : PropertyMappingV2 :=
  { property := "", value := "", elementTypes := [], action := MappingAction.map }

/-- The resolved rule for a key/extracted-value pair. -/
def resolvedMapping (c : Ctx) (k v : String) : PropertyMappingV2 :=
  (findMapping c.lookup k v c.widgetType).getD defaultMapping

/-- A `map`-action rule that is collected for spacing aggregation (line 589's
condition). -/
def isSpacingMapping (m : PropertyMappingV2) : Bool :=
  decide (m.mappedProperty = "Spacing" ∧ m.mappedDirection ≠ "")

/-- The property passes the three prefilters of the analysis loop. -/
def passesFilters (c : Ctx) (k v : String) : Bool :=
  decide (k ≠ "") && decide (k ∈ c.names) && decide (v ≠ "")

/-- The `(key, value)` pair resolves to a non-spacing `map` rule with target `t`. -/
def claimsTargetKV (c : Ctx) (t k v : String) : Bool :=
  passesFilters c k v &&
    (match findMapping c.lookup k v c.widgetType with
     | some m =>
       decide (m.action = MappingAction.map) && !(isSpacingMapping m) &&
         decide (m.mappedProperty = t)
     | Option.none => false)

/-- `claimsTargetKV` on a property's key and extracted value. -/
def claimsTarget (c : Ctx) (t : String) (p : DesignPropertyValue) : Bool :=
  claimsTargetKV c t p.key (extractPropertyValue p.value)

/-- The `(key, value)` pair passes the prefilters but resolves to no rule. -/
def missKV (c : Ctx) (k v : String) : Bool :=
  passesFilters c k v && decide (findMapping c.lookup k v c.widgetType = Option.none)

/-- `missKV` on a property's key and extracted value. -/
def missProp (c : Ctx) (p : DesignPropertyValue) : Bool :=
  missKV c p.key (extractPropertyValue p.value)

/-- The `(key, value)` pair resolves to a spacing-collected `map` rule. -/
def spacingKV (c : Ctx) (k v : String) : Bool :=
  passesFilters c k v &&
    (match findMapping c.lookup k v c.widgetType with
     | some m => decide (m.action = MappingAction.map) && isSpacingMapping m
     | Option.none => false)

/-- `spacingKV` on a property's key and extracted value. -/
def spacingProp (c : Ctx) (p : DesignPropertyValue) : Bool :=
  spacingKV c p.key (extractPropertyValue p.value)

/-- The spacing item collected for a property resolving to a spacing rule. -/
def spacingItemOf (c : Ctx) (p : DesignPropertyValue) : SpacingItem :=
  { prop := p, mapping := resolvedMapping c p.key (extractPropertyValue p.value),
    direction := (resolvedMapping c p.key (extractPropertyValue p.value)).mappedDirection,
    spacingType := spacingKindOf (resolvedMapping c p.key (extractPropertyValue p.value)) }

/-! ## Step-case rewriting lemmas for the analysis loop -/

theorem analyzeStep_noRule (c : Ctx) (st : AnalysisState) (p : DesignPropertyValue)
    (h1 : p.key ≠ "") (h2 : p.key ∈ c.names) (h3 : extractPropertyValue p.value ≠ "")
    (h4 : findMapping c.lookup p.key (extractPropertyValue p.value) c.widgetType =
      Option.none) :
    analyzeStep c st p =
      { st with
        props := st.props + 1
        skipped := st.skipped + 1
        skippedProps := st.skippedProps ++
          [(p.key, extractPropertyValue p.value, noMappingReason)] } := by
  unfold analyzeStep
  rw [if_neg h1, if_neg (not_not.mpr h2)]
  dsimp only
  rw [if_neg h3, h4]

theorem analyzeStep_remove (c : Ctx) (st : AnalysisState) (p : DesignPropertyValue)
    (m : PropertyMappingV2)
    (h1 : p.key ≠ "") (h2 : p.key ∈ c.names) (h3 : extractPropertyValue p.value ≠ "")
    (h4 : findMapping c.lookup p.key (extractPropertyValue p.value) c.widgetType = some m)
    (h5 : m.action = MappingAction.remove) :
    analyzeStep c st p =
      { st with
        props := st.props + 1
        removed := st.removed + 1
        toRemove := st.toRemove ++ [p]
        csv := st.csv ++ [mkRemovedRow c p.key (extractPropertyValue p.value) m] } := by
  unfold analyzeStep
  rw [if_neg h1, if_neg (not_not.mpr h2)]
  dsimp only
  rw [if_neg h3, h4]
  dsimp only
  rw [h5]

theorem analyzeStep_spacing (c : Ctx) (st : AnalysisState) (p : DesignPropertyValue)
    (m : PropertyMappingV2)
    (h1 : p.key ≠ "") (h2 : p.key ∈ c.names) (h3 : extractPropertyValue p.value ≠ "")
    (h4 : findMapping c.lookup p.key (extractPropertyValue p.value) c.widgetType = some m)
    (h5 : m.action = MappingAction.map) (h6 : isSpacingMapping m = true) :
    analyzeStep c st p =
      { st with
        props := st.props + 1
        spacingPropertiesToMap := st.spacingPropertiesToMap ++
          [{ prop := p, mapping := m, direction := m.mappedDirection,
             spacingType := spacingKindOf m }] } := by
  unfold analyzeStep
  rw [if_neg h1, if_neg (not_not.mpr h2)]
  dsimp only
  rw [if_neg h3, h4]
  dsimp only
  rw [h5]
  dsimp only
  rw [if_pos (by simpa [isSpacingMapping] using h6)]

theorem analyzeStep_collision (c : Ctx) (st : AnalysisState) (p : DesignPropertyValue)
    (m : PropertyMappingV2)
    (h1 : p.key ≠ "") (h2 : p.key ∈ c.names) (h3 : extractPropertyValue p.value ≠ "")
    (h4 : findMapping c.lookup p.key (extractPropertyValue p.value) c.widgetType = some m)
    (h5 : m.action = MappingAction.map) (h6 : isSpacingMapping m = false)
    (h7 : m.mappedProperty ≠ "") (h8 : m.mappedProperty ∈ st.mappedTargetProperties) :
    analyzeStep c st p =
      { st with
        props := st.props + 1
        removed := st.removed + 1
        toRemove := st.toRemove ++ [p]
        csv := st.csv ++
          [mkCollisionRow c p.key (extractPropertyValue p.value) m.mappedProperty] } := by
  unfold analyzeStep
  rw [if_neg h1, if_neg (not_not.mpr h2)]
  dsimp only
  rw [if_neg h3, h4]
  dsimp only
  rw [h5]
  dsimp only
  rw [if_neg (by simpa [isSpacingMapping] using h6)]
  rw [if_pos ⟨h7, h8⟩]

theorem analyzeStep_winner_named (c : Ctx) (st : AnalysisState) (p : DesignPropertyValue)
    (m : PropertyMappingV2)
    (h1 : p.key ≠ "") (h2 : p.key ∈ c.names) (h3 : extractPropertyValue p.value ≠ "")
    (h4 : findMapping c.lookup p.key (extractPropertyValue p.value) c.widgetType = some m)
    (h5 : m.action = MappingAction.map) (h6 : isSpacingMapping m = false)
    (h7 : m.mappedProperty ≠ "") (h8 : m.mappedProperty ∉ st.mappedTargetProperties) :
    analyzeStep c st p =
      { st with
        props := st.props + 1
        mapped := st.mapped + 1
        mappedTargetProperties := st.mappedTargetProperties ++ [m.mappedProperty]
        toModify := st.toModify ++ [(p, m)]
        csv := st.csv ++ [mkMappedRow c p.key (extractPropertyValue p.value) m] } := by
  unfold analyzeStep
  rw [if_neg h1, if_neg (not_not.mpr h2)]
  dsimp only
  rw [if_neg h3, h4]
  dsimp only
  rw [h5]
  dsimp only
  rw [if_neg (by simpa [isSpacingMapping] using h6)]
  rw [if_neg (fun hc => h8 hc.2)]
  rw [if_pos h7]
  dsimp only
  unfold setAdd
  rw [if_neg h8]

theorem analyzeStep_winner_anon (c : Ctx) (st : AnalysisState) (p : DesignPropertyValue)
    (m : PropertyMappingV2)
    (h1 : p.key ≠ "") (h2 : p.key ∈ c.names) (h3 : extractPropertyValue p.value ≠ "")
    (h4 : findMapping c.lookup p.key (extractPropertyValue p.value) c.widgetType = some m)
    (h5 : m.action = MappingAction.map) (h6 : isSpacingMapping m = false)
    (h7 : m.mappedProperty = "") :
    analyzeStep c st p =
      { st with
        props := st.props + 1
        mapped := st.mapped + 1
        toModify := st.toModify ++ [(p, m)]
        csv := st.csv ++ [mkMappedRow c p.key (extractPropertyValue p.value) m] } := by
  unfold analyzeStep
  rw [if_neg h1, if_neg (not_not.mpr h2)]
  dsimp only
  rw [if_neg h3, h4]
  dsimp only
  rw [h5]
  dsimp only
  rw [if_neg (by simpa [isSpacingMapping] using h6)]
  rw [if_neg (fun hc => hc.1 h7)]
  rw [if_neg (fun hc => hc h7)]

theorem analyzeStep_widgetProp (c : Ctx) (st : AnalysisState) (p : DesignPropertyValue)
    (m : PropertyMappingV2)
    (h1 : p.key ≠ "") (h2 : p.key ∈ c.names) (h3 : extractPropertyValue p.value ≠ "")
    (h4 : findMapping c.lookup p.key (extractPropertyValue p.value) c.widgetType = some m)
    (h5 : m.action = MappingAction.mapToWidgetProperty) :
    analyzeStep c st p =
      { st with
        props := st.props + 1
        widgetPropsMapped := st.widgetPropsMapped + 1
        toSetWidgetProp := st.toSetWidgetProp ++ [(p, m)]
        csv := st.csv ++ [mkWidgetRow c p.key (extractPropertyValue p.value) m] } := by
  unfold analyzeStep
  rw [if_neg h1, if_neg (not_not.mpr h2)]
  dsimp only
  rw [if_neg h3, h4]
  dsimp only
  rw [h5]

/-! ## Frame lemma for the analysis loop (C6/C7 bookkeeping) -/

/-- Bool test for a `removed` audit row. -/
def isRemovedRow (r : CsvDataRow) : Bool := decide (r.action = CsvAction.removed)

/-- Bool test for a `skipped` audit row. -/
def isSkippedRow (r : CsvDataRow) : Bool := decide (r.action = CsvAction.skipped)

theorem analyzeProps_frame (c : Ctx) (ps : List DesignPropertyValue) (st : AnalysisState) :
    (analyzeProps c st ps).skipped = st.skipped + (ps.filter (missProp c)).length ∧
    (analyzeProps c st ps).skippedProps = st.skippedProps ++
      (ps.filter (missProp c)).map
        (fun p => (p.key, extractPropertyValue p.value, noMappingReason)) ∧
    (analyzeProps c st ps).csv.filter isSkippedRow = st.csv.filter isSkippedRow ∧
    (analyzeProps c st ps).toModify.filter (fun e => missProp c e.1) =
      st.toModify.filter (fun e => missProp c e.1) ∧
    (analyzeProps c st ps).toRemove.filter (missProp c) = st.toRemove.filter (missProp c) ∧
    (analyzeProps c st ps).toSetWidgetProp.filter (fun e => missProp c e.1) =
      st.toSetWidgetProp.filter (fun e => missProp c e.1) ∧
    (analyzeProps c st ps).spacingPropertiesToMap =
      st.spacingPropertiesToMap ++ (ps.filter (spacingProp c)).map (spacingItemOf c) ∧
    (analyzeProps c st ps).csv.filter (fun r => spacingKV c r.property r.value) =
      st.csv.filter (fun r => spacingKV c r.property r.value) := by
  induction ps generalizing st with
  | nil => simp [analyzeProps]
  | cons p ps ih =>
    simp only [analyzeProps]
    by_cases h1 : p.key = ""
    · rw [analyzeStep_silent c st p (Or.inl h1)]
      have hmiss : missKV c p.key (extractPropertyValue p.value) = false := by
        simp [missKV, passesFilters, h1]
      have hsp : spacingKV c p.key (extractPropertyValue p.value) = false := by
        simp [spacingKV, passesFilters, h1]
      have hmissP : missProp c p = false := hmiss
      have hspP : spacingProp c p = false := hsp
      simp [ih, hmiss, hsp, hmissP, hspP, List.filter_cons]
    · by_cases h2 : p.key ∈ c.names
      swap
      · rw [analyzeStep_silent c st p (Or.inr (Or.inl h2))]
        have hmiss : missKV c p.key (extractPropertyValue p.value) = false := by
          simp [missKV, passesFilters, h2]
        have hsp : spacingKV c p.key (extractPropertyValue p.value) = false := by
          simp [spacingKV, passesFilters, h2]
        have hmissP : missProp c p = false := hmiss
        have hspP : spacingProp c p = false := hsp
        simp [ih, hmiss, hsp, hmissP, hspP, List.filter_cons]
      · by_cases h3 : extractPropertyValue p.value = ""
        · rw [analyzeStep_silent c st p (Or.inr (Or.inr h3))]
          have hmiss : missKV c p.key (extractPropertyValue p.value) = false := by
            simp [missKV, passesFilters, h3]
          have hsp : spacingKV c p.key (extractPropertyValue p.value) = false := by
            simp [spacingKV, passesFilters, h3]
          have hmissP : missProp c p = false := hmiss
          have hspP : spacingProp c p = false := hsp
          simp [ih, hmiss, hsp, hmissP, hspP, List.filter_cons]
        · cases h4 : findMapping c.lookup p.key (extractPropertyValue p.value) c.widgetType with
          | none =>
            rw [analyzeStep_noRule c st p h1 h2 h3 h4]
            have hmiss : missKV c p.key (extractPropertyValue p.value) = true := by
              simp [missKV, passesFilters, h1, h2, h3, h4]
            have hsp : spacingKV c p.key (extractPropertyValue p.value) = false := by
              simp [spacingKV, h4]
            have hmissP : missProp c p = true := hmiss
            have hspP : spacingProp c p = false := hsp
            simp [ih, hmiss, hsp, hmissP, hspP, List.filter_cons, Nat.add_assoc,
              Nat.add_comm, Nat.add_left_comm]
          | some m =>
            have hmiss : missKV c p.key (extractPropertyValue p.value) = false := by
              simp [missKV, h4]
            cases h5 : m.action with
            | remove =>
              rw [analyzeStep_remove c st p m h1 h2 h3 h4 h5]
              have hsp : spacingKV c p.key (extractPropertyValue p.value) = false := by
                simp [spacingKV, h4, h5]
              have hmissP : missProp c p = false := hmiss
              have hspP : spacingProp c p = false := hsp
              simp [ih, hmiss, hsp, hmissP, hspP, List.filter_cons,
                List.filter_append, isRemovedRow, isSkippedRow, mkRemovedRow, baseRow]
            | mapToWidgetProperty =>
              rw [analyzeStep_widgetProp c st p m h1 h2 h3 h4 h5]
              have hsp : spacingKV c p.key (extractPropertyValue p.value) = false := by
                simp [spacingKV, h4, h5]
              have hmissP : missProp c p = false := hmiss
              have hspP : spacingProp c p = false := hsp
              simp [ih, hmiss, hsp, hmissP, hspP, List.filter_cons,
                List.filter_append, isRemovedRow, isSkippedRow, mkWidgetRow, baseRow]
            | map =>
              by_cases h6 : isSpacingMapping m = true
              · rw [analyzeStep_spacing c st p m h1 h2 h3 h4 h5 h6]
                have hsp : spacingKV c p.key (extractPropertyValue p.value) = true := by
                  simp [spacingKV, passesFilters, h1, h2, h3, h4, h5, h6]
                have hmissP : missProp c p = false := hmiss
                have hspP : spacingProp c p = true := hsp
                simp [ih, hmiss, hsp, hmissP, hspP, List.filter_cons,
                  List.filter_append, spacingItemOf, resolvedMapping, h4]
              · have h6f : isSpacingMapping m = false := by simpa using h6
                have hsp : spacingKV c p.key (extractPropertyValue p.value) = false := by
                  simp [spacingKV, h4, h6f]
                by_cases h7 : m.mappedProperty = ""
                · rw [analyzeStep_winner_anon c st p m h1 h2 h3 h4 h5 h6f h7]
                  have hmissP : missProp c p = false := hmiss
                  have hspP : spacingProp c p = false := hsp
                  simp [ih, hmiss, hsp, hmissP, hspP, List.filter_cons,
                    List.filter_append, isRemovedRow, isSkippedRow, mkMappedRow, baseRow]
                · by_cases h8 : m.mappedProperty ∈ st.mappedTargetProperties
                  · rw [analyzeStep_collision c st p m h1 h2 h3 h4 h5 h6f h7 h8]
                    have hmissP : missProp c p = false := hmiss
                    have hspP : spacingProp c p = false := hsp
                    simp [ih, hmiss, hsp, hmissP, hspP, List.filter_cons,
                      List.filter_append, isRemovedRow, isSkippedRow, mkCollisionRow, baseRow]
                  · rw [analyzeStep_winner_named c st p m h1 h2 h3 h4 h5 h6f h7 h8]
                    have hmissP : missProp c p = false := hmiss
                    have hspP : spacingProp c p = false := hsp
                    simp [ih, hmiss, hsp, hmissP, hspP, List.filter_cons,
                      List.filter_append, isRemovedRow, isSkippedRow, mkMappedRow, baseRow]

theorem analyzeStep_removed_balance (c : Ctx) (st : AnalysisState) (p : DesignPropertyValue) :
    (analyzeStep c st p).removed + (st.csv.filter isRemovedRow).length =
      st.removed + ((analyzeStep c st p).csv.filter isRemovedRow).length := by
  by_cases h1 : p.key = ""
  · rw [analyzeStep_silent c st p (Or.inl h1)]
  · by_cases h2 : p.key ∈ c.names
    swap
    · rw [analyzeStep_silent c st p (Or.inr (Or.inl h2))]
    · by_cases h3 : extractPropertyValue p.value = ""
      · rw [analyzeStep_silent c st p (Or.inr (Or.inr h3))]
      · cases h4 : findMapping c.lookup p.key (extractPropertyValue p.value) c.widgetType with
        | none => rw [analyzeStep_noRule c st p h1 h2 h3 h4]
        | some m =>
          cases h5 : m.action with
          | remove =>
            rw [analyzeStep_remove c st p m h1 h2 h3 h4 h5]
            simp [List.filter_append, isRemovedRow, mkRemovedRow, baseRow, Nat.add_assoc,
              Nat.add_comm, Nat.add_left_comm]
          | mapToWidgetProperty =>
            rw [analyzeStep_widgetProp c st p m h1 h2 h3 h4 h5]
            simp [List.filter_append, isRemovedRow, mkWidgetRow, baseRow]
          | map =>
            by_cases h6 : isSpacingMapping m = true
            · rw [analyzeStep_spacing c st p m h1 h2 h3 h4 h5 h6]
            · have h6f : isSpacingMapping m = false := by simpa using h6
              by_cases h7 : m.mappedProperty = ""
              · rw [analyzeStep_winner_anon c st p m h1 h2 h3 h4 h5 h6f h7]
                simp [List.filter_append, isRemovedRow, mkMappedRow, baseRow]
              · by_cases h8 : m.mappedProperty ∈ st.mappedTargetProperties
                · rw [analyzeStep_collision c st p m h1 h2 h3 h4 h5 h6f h7 h8]
                  simp [List.filter_append, isRemovedRow, mkCollisionRow, baseRow,
                    Nat.add_assoc, Nat.add_comm, Nat.add_left_comm]
                · rw [analyzeStep_winner_named c st p m h1 h2 h3 h4 h5 h6f h7 h8]
                  simp [List.filter_append, isRemovedRow, mkMappedRow, baseRow]

theorem analyzeProps_removed_balance (c : Ctx) (ps : List DesignPropertyValue)
    (st : AnalysisState) :
    (analyzeProps c st ps).removed + (st.csv.filter isRemovedRow).length =
      st.removed + ((analyzeProps c st ps).csv.filter isRemovedRow).length := by
  induction ps generalizing st with
  | nil => rfl
  | cons p ps ih =>
    simp only [analyzeProps]
    have hstep := analyzeStep_removed_balance c st p
    have hrest := ih (analyzeStep c st p)
    omega

/-! ## C6: properties without a rule are counted as skipped but emit no
audit row -/

theorem spacingProp_not_miss (c : Ctx) (x : DesignPropertyValue)
    (h : spacingProp c x = true) : missProp c x = false := by
  unfold spacingProp spacingKV at h
  unfold missProp missKV
  cases h4 : findMapping c.lookup x.key (extractPropertyValue x.value) c.widgetType with
  | none =>
    rw [h4] at h
    simp at h
  | some m => simp [h4]

/-- C6 (amended): for a property on a processed target-type element whose
name passes the rule-name filter and whose value extracts non-empty, a lookup
miss (no exact and no wildcard rule) leaves the property unmutated — it is
queued in none of the mutation lists — increments the skipped total and
appends the name/value/reason to the internal skipped list; however no audit
row of decision `skipped` is ever pushed: the report stream receives nothing
for it. -/
theorem C6_skipped_counted_but_no_row (c : Ctx) (ps : List DesignPropertyValue) :
    (analyzeProps c initState ps).skipped = (ps.filter (missProp c)).length ∧
    (analyzeProps c initState ps).skippedProps =
      (ps.filter (missProp c)).map
        (fun p => (p.key, extractPropertyValue p.value, noMappingReason)) ∧
    (analyzeProps c initState ps).csv.filter isSkippedRow = [] ∧
    (analyzeProps c initState ps).toModify.filter (fun e => missProp c e.1) = [] ∧
    (analyzeProps c initState ps).toRemove.filter (missProp c) = [] ∧
    (analyzeProps c initState ps).toSetWidgetProp.filter (fun e => missProp c e.1) = [] ∧
    (analyzeProps c initState ps).spacingPropertiesToMap.filter
      (fun it => missProp c it.prop) = [] := by
  obtain ⟨a1, a2, a3, a4, a5, a6, a7, a8⟩ := analyzeProps_frame c ps initState
  refine ⟨by simpa [initState] using a1, by simpa [initState] using a2,
    by simpa [initState] using a3, by simpa [initState] using a4,
    by simpa [initState] using a5, by simpa [initState] using a6, ?_⟩
  rw [a7]
  simp only [initState, List.nil_append]
  rw [List.filter_map]
  rw [show ((fun it => missProp c it.prop) ∘ spacingItemOf c) = (fun x => missProp c x) from
    rfl]
  rw [List.filter_eq_nil_iff.mpr]
  · simp
  · intro x hx
    simp [spacingProp_not_miss c x (List.mem_filter.mp hx).2]

/-- Design properties exercising the two silent paths of the skipped
handling: the first has a rule for its name but not for this value (lookup
miss), the second has no rule for its name at all. -/
def c6Props : List DesignPropertyValue :=
  [{ id := 1, key := "Justify content", value := DesignValue.option "Left" },
   { id := 2, key := "Qux", value := DesignValue.option "A" }]

/-- C6 counterexample: both properties lack an exact and a wildcard rule
entry, yet the element processor emits no audit row at all (the audit stream
stays empty — in particular no `skipped` row), and only the first property is
counted in the skipped total (the second is silently dropped by the
rule-name filter before any counting).  This contradicts the claim that every
such property gets a `skipped` audit record and is counted. -/
theorem C6_counterexample :
    findMapping demoCtx.lookup "Justify content" "Left" demoCtx.widgetType = Option.none ∧
    findMapping demoCtx.lookup "Qux" "A" demoCtx.widgetType = Option.none ∧
    (analyzeProps demoCtx initState c6Props).skipped = 1 ∧
    (analyzeProps demoCtx initState c6Props).csv = [] := by
  refine ⟨rfl, rfl, rfl, rfl⟩

/-! ## C1 helpers: destination-collision bookkeeping -/

/-- Bool test for a `removed` audit row whose property/value resolves to a
non-spacing `map` rule targeting `t`. -/
def claimsRowRemoved (c : Ctx) (t : String) (r : CsvDataRow) : Bool :=
  claimsTargetKV c t r.property r.value && decide (r.action = CsvAction.removed)

/-- Bool test for a `mapped` audit row whose property/value resolves to a
non-spacing `map` rule targeting `t`. -/
def claimsRowMapped (c : Ctx) (t : String) (r : CsvDataRow) : Bool :=
  claimsTargetKV c t r.property r.value && decide (r.action = CsvAction.mapped)

theorem claimsTarget_decomp (c : Ctx) (t : String) (p : DesignPropertyValue)
    (h : claimsTarget c t p = true) :
    p.key ≠ "" ∧ p.key ∈ c.names ∧ extractPropertyValue p.value ≠ "" ∧
    ∃ m, findMapping c.lookup p.key (extractPropertyValue p.value) c.widgetType = some m ∧
      m.action = MappingAction.map ∧ isSpacingMapping m = false ∧ m.mappedProperty = t := by
  unfold claimsTarget claimsTargetKV passesFilters at h
  cases h4 : findMapping c.lookup p.key (extractPropertyValue p.value) c.widgetType with
  | none =>
    rw [h4] at h
    simp at h
  | some m =>
    rw [h4] at h
    simp only [Bool.and_eq_true, Bool.not_eq_true', decide_eq_true_eq] at h
    obtain ⟨⟨⟨hk1, hk2⟩, hk3⟩, ⟨hm1, hm2⟩, hm3⟩ := h
    exact ⟨hk1, hk2, hk3, m, rfl, hm1, hm2, hm3⟩

theorem analyzeStep_blocked (c : Ctx) (t : String) (ht : t ≠ "") (st : AnalysisState)
    (p : DesignPropertyValue) (hmem : t ∈ st.mappedTargetProperties) :
    t ∈ (analyzeStep c st p).mappedTargetProperties ∧
    (analyzeStep c st p).toModify.filter (fun e => claimsTarget c t e.1) =
      st.toModify.filter (fun e => claimsTarget c t e.1) ∧
    (analyzeStep c st p).toRemove.filter (claimsTarget c t) =
      st.toRemove.filter (claimsTarget c t) ++
        (if claimsTarget c t p = true then [p] else []) ∧
    (analyzeStep c st p).csv.filter (claimsRowRemoved c t) =
      st.csv.filter (claimsRowRemoved c t) ++
        (if claimsTarget c t p = true then
          [mkCollisionRow c p.key (extractPropertyValue p.value) t] else []) ∧
    (analyzeStep c st p).csv.filter (claimsRowMapped c t) =
      st.csv.filter (claimsRowMapped c t) := by
  by_cases h1 : p.key = ""
  · rw [analyzeStep_silent c st p (Or.inl h1)]
    have hcl : claimsTarget c t p = false := by
      simp [claimsTarget, claimsTargetKV, passesFilters, h1]
    simp [hmem, hcl]
  · by_cases h2 : p.key ∈ c.names
    swap
    · rw [analyzeStep_silent c st p (Or.inr (Or.inl h2))]
      have hcl : claimsTarget c t p = false := by
        simp [claimsTarget, claimsTargetKV, passesFilters, h2]
      simp [hmem, hcl]
    · by_cases h3 : extractPropertyValue p.value = ""
      · rw [analyzeStep_silent c st p (Or.inr (Or.inr h3))]
        have hcl : claimsTarget c t p = false := by
          simp [claimsTarget, claimsTargetKV, passesFilters, h3]
        simp [hmem, hcl]
      · cases h4 : findMapping c.lookup p.key (extractPropertyValue p.value) c.widgetType with
        | none =>
          rw [analyzeStep_noRule c st p h1 h2 h3 h4]
          have hcl : claimsTarget c t p = false := by
            simp [claimsTarget, claimsTargetKV, h4]
          simp [hmem, hcl]
        | some m =>
          cases h5 : m.action with
          | remove =>
            rw [analyzeStep_remove c st p m h1 h2 h3 h4 h5]
            have hclKV : claimsTargetKV c t p.key (extractPropertyValue p.value) = false := by
              simp [claimsTargetKV, h4, h5]
            have hcl : claimsTarget c t p = false := hclKV
            simp [hmem, hcl, hclKV, List.filter_append, claimsRowRemoved, claimsRowMapped,
              mkRemovedRow, baseRow]
          | mapToWidgetProperty =>
            rw [analyzeStep_widgetProp c st p m h1 h2 h3 h4 h5]
            have hclKV : claimsTargetKV c t p.key (extractPropertyValue p.value) = false := by
              simp [claimsTargetKV, h4, h5]
            have hcl : claimsTarget c t p = false := hclKV
            simp [hmem, hcl, hclKV, List.filter_append, claimsRowRemoved, claimsRowMapped,
              mkWidgetRow, baseRow]
          | map =>
            by_cases h6 : isSpacingMapping m = true
            · rw [analyzeStep_spacing c st p m h1 h2 h3 h4 h5 h6]
              have hcl : claimsTarget c t p = false := by
                simp [claimsTarget, claimsTargetKV, h4, h6]
              simp [hmem, hcl]
            · have h6f : isSpacingMapping m = false := by simpa using h6
              by_cases h9 : m.mappedProperty = t
              · have hclKV : claimsTargetKV c t p.key (extractPropertyValue p.value) =
                    true := by
                  simp [claimsTargetKV, passesFilters, h1, h2, h3, h4, h5, h6f, h9]
                have hcl : claimsTarget c t p = true := hclKV
                have h7 : m.mappedProperty ≠ "" := by
                  rw [h9]
                  exact ht
                have h8 : m.mappedProperty ∈ st.mappedTargetProperties := by
                  rw [h9]
                  exact hmem
                rw [analyzeStep_collision c st p m h1 h2 h3 h4 h5 h6f h7 h8]
                simp [hmem, hcl, hclKV, h9, List.filter_append, claimsRowRemoved,
                  claimsRowMapped, mkCollisionRow, baseRow]
              · have hclKV : claimsTargetKV c t p.key (extractPropertyValue p.value) =
                    false := by
                  simp [claimsTargetKV, h4, h9]
                have hcl : claimsTarget c t p = false := hclKV
                by_cases h7 : m.mappedProperty = ""
                · rw [analyzeStep_winner_anon c st p m h1 h2 h3 h4 h5 h6f h7]
                  simp [hmem, hcl, hclKV, List.filter_append, claimsRowRemoved,
                    claimsRowMapped, mkMappedRow, baseRow]
                · by_cases h8 : m.mappedProperty ∈ st.mappedTargetProperties
                  · rw [analyzeStep_collision c st p m h1 h2 h3 h4 h5 h6f h7 h8]
                    simp [hmem, hcl, hclKV, List.filter_append, claimsRowRemoved,
                      claimsRowMapped, mkCollisionRow, baseRow]
                  · rw [analyzeStep_winner_named c st p m h1 h2 h3 h4 h5 h6f h7 h8]
                    simp [hmem, hcl, hclKV, List.filter_append, claimsRowRemoved,
                      claimsRowMapped, mkMappedRow, baseRow]

theorem analyzeStep_open_step (c : Ctx) (t : String) (st : AnalysisState)
    (p : DesignPropertyValue) (hmem : t ∉ st.mappedTargetProperties)
    (hcl : claimsTarget c t p = false) :
    t ∉ (analyzeStep c st p).mappedTargetProperties ∧
    (analyzeStep c st p).toModify.filter (fun e => claimsTarget c t e.1) =
      st.toModify.filter (fun e => claimsTarget c t e.1) ∧
    (analyzeStep c st p).toRemove.filter (claimsTarget c t) =
      st.toRemove.filter (claimsTarget c t) ∧
    (analyzeStep c st p).csv.filter (claimsRowRemoved c t) =
      st.csv.filter (claimsRowRemoved c t) ∧
    (analyzeStep c st p).csv.filter (claimsRowMapped c t) =
      st.csv.filter (claimsRowMapped c t) := by
  have hclKV : claimsTargetKV c t p.key (extractPropertyValue p.value) = false := hcl
  by_cases h1 : p.key = ""
  · rw [analyzeStep_silent c st p (Or.inl h1)]
    simp [hmem, hcl]
  · by_cases h2 : p.key ∈ c.names
    swap
    · rw [analyzeStep_silent c st p (Or.inr (Or.inl h2))]
      simp [hmem, hcl]
    · by_cases h3 : extractPropertyValue p.value = ""
      · rw [analyzeStep_silent c st p (Or.inr (Or.inr h3))]
        simp [hmem, hcl]
      · cases h4 : findMapping c.lookup p.key (extractPropertyValue p.value) c.widgetType with
        | none =>
          rw [analyzeStep_noRule c st p h1 h2 h3 h4]
          simp [hmem, hcl]
        | some m =>
          cases h5 : m.action with
          | remove =>
            rw [analyzeStep_remove c st p m h1 h2 h3 h4 h5]
            simp [hmem, hcl, hclKV, List.filter_append, claimsRowRemoved, claimsRowMapped,
              mkRemovedRow, baseRow]
          | mapToWidgetProperty =>
            rw [analyzeStep_widgetProp c st p m h1 h2 h3 h4 h5]
            simp [hmem, hcl, hclKV, List.filter_append, claimsRowRemoved, claimsRowMapped,
              mkWidgetRow, baseRow]
          | map =>
            by_cases h6 : isSpacingMapping m = true
            · rw [analyzeStep_spacing c st p m h1 h2 h3 h4 h5 h6]
              simp [hmem, hcl]
            · have h6f : isSpacingMapping m = false := by simpa using h6
              by_cases h9 : m.mappedProperty = t
              · exfalso
                have : claimsTarget c t p = true := by
                  simp [claimsTarget, claimsTargetKV, passesFilters, h1, h2, h3, h4, h5,
                    h6f, h9]
                rw [this] at hcl
                exact Bool.noConfusion hcl
              · have h9s : t ≠ m.mappedProperty := fun hh => h9 hh.symm
                by_cases h7 : m.mappedProperty = ""
                · rw [analyzeStep_winner_anon c st p m h1 h2 h3 h4 h5 h6f h7]
                  simp [hmem, hcl, hclKV, List.filter_append, claimsRowRemoved,
                    claimsRowMapped, mkMappedRow, baseRow]
                · by_cases h8 : m.mappedProperty ∈ st.mappedTargetProperties
                  · rw [analyzeStep_collision c st p m h1 h2 h3 h4 h5 h6f h7 h8]
                    simp [hmem, hcl, hclKV, List.filter_append, claimsRowRemoved,
                      claimsRowMapped, mkCollisionRow, baseRow]
                  · rw [analyzeStep_winner_named c st p m h1 h2 h3 h4 h5 h6f h7 h8]
                    simp [hmem, hcl, hclKV, h9s, List.filter_append, claimsRowRemoved,
                      claimsRowMapped, mkMappedRow, baseRow]

theorem analyzeProps_blocked (c : Ctx) (t : String) (ht : t ≠ "")
    (ps : List DesignPropertyValue) :
    ∀ st : AnalysisState, t ∈ st.mappedTargetProperties →
    t ∈ (analyzeProps c st ps).mappedTargetProperties ∧
    (analyzeProps c st ps).toModify.filter (fun e => claimsTarget c t e.1) =
      st.toModify.filter (fun e => claimsTarget c t e.1) ∧
    (analyzeProps c st ps).toRemove.filter (claimsTarget c t) =
      st.toRemove.filter (claimsTarget c t) ++ ps.filter (claimsTarget c t) ∧
    (analyzeProps c st ps).csv.filter (claimsRowRemoved c t) =
      st.csv.filter (claimsRowRemoved c t) ++ (ps.filter (claimsTarget c t)).map
        (fun p => mkCollisionRow c p.key (extractPropertyValue p.value) t) ∧
    (analyzeProps c st ps).csv.filter (claimsRowMapped c t) =
      st.csv.filter (claimsRowMapped c t) := by
  induction ps with
  | nil =>
    intro st hmem
    simp [analyzeProps, hmem]
  | cons p ps ih =>
    intro st hmem
    obtain ⟨s1, s2, s3, s4, s5⟩ := analyzeStep_blocked c t ht st p hmem
    obtain ⟨i1, i2, i3, i4, i5⟩ := ih (analyzeStep c st p) s1
    simp only [analyzeProps]
    refine ⟨i1, ?_, ?_, ?_, ?_⟩
    · rw [i2, s2]
    · rw [i3, s3, List.filter_cons]
      by_cases hcl : claimsTarget c t p = true <;> simp [hcl, List.append_assoc]
    · rw [i4, s4, List.filter_cons]
      by_cases hcl : claimsTarget c t p = true <;> simp [hcl, List.append_assoc]
    · rw [i5, s5]

theorem analyzeProps_open (c : Ctx) (t : String) (ht : t ≠ "")
    (ps : List DesignPropertyValue) :
    ∀ st : AnalysisState, t ∉ st.mappedTargetProperties →
    (analyzeProps c st ps).toModify.filter (fun e => claimsTarget c t e.1) =
      st.toModify.filter (fun e => claimsTarget c t e.1) ++
        ((ps.filter (claimsTarget c t)).take 1).map
          (fun p => (p, resolvedMapping c p.key (extractPropertyValue p.value))) ∧
    (analyzeProps c st ps).toRemove.filter (claimsTarget c t) =
      st.toRemove.filter (claimsTarget c t) ++ (ps.filter (claimsTarget c t)).drop 1 ∧
    (analyzeProps c st ps).csv.filter (claimsRowRemoved c t) =
      st.csv.filter (claimsRowRemoved c t) ++
        ((ps.filter (claimsTarget c t)).drop 1).map
          (fun p => mkCollisionRow c p.key (extractPropertyValue p.value) t) ∧
    (analyzeProps c st ps).csv.filter (claimsRowMapped c t) =
      st.csv.filter (claimsRowMapped c t) ++
        ((ps.filter (claimsTarget c t)).take 1).map
          (fun p => mkMappedRow c p.key (extractPropertyValue p.value)
            (resolvedMapping c p.key (extractPropertyValue p.value))) := by
  induction ps with
  | nil =>
    intro st hmem
    simp [analyzeProps]
  | cons p ps ih =>
    intro st hmem
    simp only [analyzeProps]
    by_cases hcl : claimsTarget c t p = true
    · obtain ⟨hk1, hk2, hk3, m, h4, h5, h6f, h9⟩ := claimsTarget_decomp c t p hcl
      have hclKV : claimsTargetKV c t p.key (extractPropertyValue p.value) = true := hcl
      have h7 : m.mappedProperty ≠ "" := by
        rw [h9]
        exact ht
      have h8 : m.mappedProperty ∉ st.mappedTargetProperties := by
        rw [h9]
        exact hmem
      have hstep := analyzeStep_winner_named c st p m hk1 hk2 hk3 h4 h5 h6f h7 h8
      have hmem2 : t ∈ (analyzeStep c st p).mappedTargetProperties := by
        rw [hstep]
        simp [h9]
      obtain ⟨b1, b2, b3, b4, b5⟩ := analyzeProps_blocked c t ht ps (analyzeStep c st p) hmem2
      refine ⟨?_, ?_, ?_, ?_⟩
      · rw [b2, hstep, List.filter_cons]
        simp [hcl, hclKV, List.filter_append, resolvedMapping, h4]
      · rw [b3, hstep, List.filter_cons]
        simp [hcl]
      · rw [b4, hstep, List.filter_cons]
        simp [hcl, hclKV, List.filter_append, claimsRowRemoved, claimsRowMapped,
          mkMappedRow, baseRow]
      · rw [b5, hstep, List.filter_cons]
        simp [hcl, hclKV, List.filter_append, claimsRowRemoved, claimsRowMapped,
          mkMappedRow, baseRow, resolvedMapping, h4]
    · have hclf : claimsTarget c t p = false := by simpa using hcl
      obtain ⟨s1, s2, s3, s4, s5⟩ := analyzeStep_open_step c t st p hmem hclf
      obtain ⟨i1, i2, i3, i4⟩ := ih (analyzeStep c st p) s1
      refine ⟨?_, ?_, ?_, ?_⟩
      · rw [i1, s2, List.filter_cons]
        simp [hclf]
      · rw [i2, s3, List.filter_cons]
        simp [hclf]
      · rw [i3, s4, List.filter_cons]
        simp [hclf]
      · rw [i4, s5, List.filter_cons]
        simp [hclf]

/-! ## C1: first claimant of a destination wins, later claimants are removed -/

/-- C1: for any non-empty destination name `t`, among the properties of an
element that resolve to a non-spacing `map` rule targeting `t` (the
claimants): the first claimant in processing order is the only one queued for
rewriting (it claims the target), every later claimant is queued for deletion
instead, exactly one `mapped` row (the first claimant's) and `N − 1`
`removed` rows are pushed for them, and each such `removed` row carries the
duplicate-target collision reason. -/
theorem C1_first_claimant_wins (c : Ctx) (t : String) (ps : List DesignPropertyValue)
    (ht : t ≠ "") :
    ((analyzeProps c initState ps).toModify.filter (fun e => claimsTarget c t e.1)).map
      (fun e => e.1) = (ps.filter (claimsTarget c t)).take 1 ∧
    (analyzeProps c initState ps).toRemove.filter (claimsTarget c t) =
      (ps.filter (claimsTarget c t)).drop 1 ∧
    (analyzeProps c initState ps).csv.filter (claimsRowRemoved c t) =
      ((ps.filter (claimsTarget c t)).drop 1).map
        (fun p => mkCollisionRow c p.key (extractPropertyValue p.value) t) ∧
    (analyzeProps c initState ps).csv.filter (claimsRowMapped c t) =
      ((ps.filter (claimsTarget c t)).take 1).map
        (fun p => mkMappedRow c p.key (extractPropertyValue p.value)
          (resolvedMapping c p.key (extractPropertyValue p.value))) ∧
    (∀ r ∈ (analyzeProps c initState ps).csv, claimsRowRemoved c t r = true →
      r.reason = collisionReason t) := by
  obtain ⟨o1, o2, o3, o4⟩ := analyzeProps_open c t ht ps initState (by simp [initState])
  refine ⟨?_, by simpa [initState] using o2, by simpa [initState] using o3,
    by simpa [initState] using o4, ?_⟩
  · rw [o1]
    simp only [initState, List.filter_nil, List.nil_append, List.map_map]
    rw [show ((fun (e : DesignPropertyValue × PropertyMappingV2) => e.1) ∘
        fun p => (p, resolvedMapping c p.key (extractPropertyValue p.value))) =
        fun p => p from rfl]
    rw [List.map_id']
  · intro r hr hrow
    have hmem : r ∈ (analyzeProps c initState ps).csv.filter (claimsRowRemoved c t) :=
      List.mem_filter.mpr ⟨hr, hrow⟩
    rw [o3] at hmem
    simp only [initState, List.filter_nil, List.nil_append] at hmem
    obtain ⟨p, hp, hpr⟩ := List.mem_map.mp hmem
    rw [← hpr]
    rfl

/-- Two rules on different native properties both targeting `Align content`. -/
def ruleRender : PropertyMappingV2 :=
  { property := "Render children horizontal", value := "Yes", elementTypes := ["*"],
    action := MappingAction.map, mappedProperty := "Align content", mappedValue := "Center" }

/-- A mappings file with two rules colliding on the `Align content` target. -/
def c1File : List PropertyMappingV2 := [ruleDivMap, ruleRender]

/-- A context over `c1File` for a `DivContainer`. -/
def c1Ctx : Ctx :=
  { lookup := mappingsLookup c1File, names := mappedPropertyNames c1File, widgetName := "W",
    widgetType := "DivContainer", docName := "Doc", moduleName := "Mod" }

/-- Two design properties that both resolve to rules targeting `Align content`. -/
def c1Props : List DesignPropertyValue :=
  [{ id := 1, key := "Justify content", value := DesignValue.option "Center" },
   { id := 2, key := "Render children horizontal", value := DesignValue.option "Yes" }]

theorem C1_first_claimant_wins_witness :
    (analyzeProps c1Ctx initState c1Props).csv.filter (claimsRowRemoved c1Ctx "Align content") =
      ((c1Props.filter (claimsTarget c1Ctx "Align content")).drop 1).map
        (fun p => mkCollisionRow c1Ctx p.key (extractPropertyValue p.value)
          "Align content") :=
  (C1_first_claimant_wins c1Ctx "Align content" c1Props (by decide)).2.2.1

/-! ## C7 helpers: the mutation phases of `processWidget` -/

theorem widgetPhase_mem (ts : List (DesignPropertyValue × PropertyMappingV2)) (w : Widget)
    (props : List DesignPropertyValue) (q : DesignPropertyValue)
    (hq : q ∈ (widgetPhase ts w props).2) : q ∈ props := by
  induction ts generalizing w props with
  | nil => exact hq
  | cons pm ts ih =>
    simp only [widgetPhase, List.foldl_cons] at hq
    cases happly : applyWidgetPropertyMapping w pm.2 with
    | none =>
      rw [happly] at hq
      exact ih w props hq
    | some w2 =>
      rw [happly] at hq
      exact (List.mem_filter.mp (ih w2 _ hq)).1

theorem removalPhase_not_removed (ids : List Nat) (props : List DesignPropertyValue)
    (q : DesignPropertyValue) (hq : q ∈ removalPhase ids props) :
    ids.contains q.id = false ∧ q ∈ props := by
  unfold removalPhase at hq
  have h := List.mem_filter.mp hq
  exact ⟨by simpa using h.2, h.1⟩

theorem spacingPhase_rows (c : Ctx) (props : List DesignPropertyValue)
    (existing : Option DesignPropertyValue) (items : List SpacingItem) :
    (spacingPhase c props existing items).2.2 =
      if items.isEmpty then [] else items.map (csvSpacingRow c) := by
  unfold spacingPhase
  split <;> rfl

theorem processWidget_eq (lookup : List (String × PropertyMappingV2)) (names : List String)
    (docName moduleName : String) (w : Widget) (h1 : ¬w.designProperties.isEmpty = true)
    (h2 : w.tpe ∈ TARGET_ELEMENT_TYPES) :
    processWidget lookup names docName moduleName w =
      (let c := processCtx lookup names docName moduleName w
       let st := analyzeProps c initState w.designProperties
       let spacingOut := spacingPhase c w.designProperties
         (w.designProperties.find? (fun p => p.key == "Spacing")) st.spacingPropertiesToMap
       let removalIds := (st.toRemove ++ st.spacingPropertiesToMap.map
         (fun it => it.prop)).map (fun p => p.id)
       let wp := widgetPhase st.toSetWidgetProp w
         (removalPhase removalIds (modifyPhase st.toModify spacingOut.1))
       ({ wp.1 with designProperties := wp.2 },
        { props := st.props, mapped := st.mapped + spacingOut.2.1, removed := st.removed,
          widgetPropsMapped := st.widgetPropsMapped, skipped := st.skipped },
        st.csv ++ spacingOut.2.2)) := by
  unfold processWidget
  rw [if_neg h1, if_neg (not_not.mpr h2)]

/-! ## C7: merged spacing sources are audited as mapped, never removed,
although physically deleted -/

/-- C7: on a processed target-type widget, for every source property that is
folded into the `Spacing` aggregate: its audit rows are exactly one `mapped`
row per such property (with `mappedProperty = "Spacing"`), never a `removed`
row; the removed counter equals the number of `removed` rows, so the merged
sources do not increment it; and the source property is nevertheless
physically deleted from the element's final property list. -/
theorem C7_spacing_sources_audited_mapped (lookup : List (String × PropertyMappingV2))
    (names : List String) (docName moduleName : String) (w : Widget)
    (htype : w.tpe ∈ TARGET_ELEMENT_TYPES) :
    (∀ r ∈ (processWidget lookup names docName moduleName w).2.2,
      spacingKV (processCtx lookup names docName moduleName w) r.property r.value = true →
      r.action = CsvAction.mapped ∧ r.mappedProperty = "Spacing") ∧
    ((processWidget lookup names docName moduleName w).2.2.filter
        (fun r => spacingKV (processCtx lookup names docName moduleName w)
          r.property r.value)) =
      (w.designProperties.filter
          (spacingProp (processCtx lookup names docName moduleName w))).map
        (fun p => csvSpacingRow (processCtx lookup names docName moduleName w)
          (spacingItemOf (processCtx lookup names docName moduleName w) p)) ∧
    (processWidget lookup names docName moduleName w).2.1.removed =
      ((processWidget lookup names docName moduleName w).2.2.filter isRemovedRow).length ∧
    (∀ p ∈ w.designProperties,
      spacingProp (processCtx lookup names docName moduleName w) p = true →
      p.id ∉ ((processWidget lookup names docName moduleName w).1.designProperties.map
        (fun q => q.id))) := by
  by_cases hempty : w.designProperties.isEmpty = true
  · have hnil : w.designProperties = [] := by
      cases hw : w.designProperties with
      | nil => rfl
      | cons a l =>
        rw [hw] at hempty
        simp at hempty
    unfold processWidget
    rw [if_pos hempty]
    simp [hnil]
  · obtain ⟨_, _, _, _, _, _, a8, a9⟩ :=
      analyzeProps_frame (processCtx lookup names docName moduleName w)
        w.designProperties initState
    have hbal :=
      analyzeProps_removed_balance (processCtx lookup names docName moduleName w)
        w.designProperties initState
    rw [processWidget_eq lookup names docName moduleName w hempty htype]
    dsimp only
    rw [spacingPhase_rows]
    rw [show initState.csv = ([] : List CsvDataRow) from rfl, List.filter_nil] at a9
    rw [show initState.spacingPropertiesToMap = ([] : List SpacingItem) from rfl,
      List.nil_append] at a8
    rw [show initState.csv = ([] : List CsvDataRow) from rfl,
      show initState.removed = 0 from rfl, List.filter_nil, List.length_nil,
      Nat.add_zero, Nat.zero_add] at hbal
    constructor
    · -- (a) spacing-predicate rows are mapped rows for "Spacing"
      intro r hr hpred
      rcases List.mem_append.mp hr with hcsv | hsprow
      · exfalso
        have : r ∈ (analyzeProps (processCtx lookup names docName moduleName w) initState
            w.designProperties).csv.filter
              (fun r => spacingKV (processCtx lookup names docName moduleName w)
                r.property r.value) := List.mem_filter.mpr ⟨hcsv, hpred⟩
        rw [a9] at this
        simp at this
      · by_cases hitems : (analyzeProps (processCtx lookup names docName moduleName w)
            initState w.designProperties).spacingPropertiesToMap.isEmpty = true
        · rw [if_pos hitems] at hsprow
          simp at hsprow
        · rw [if_neg hitems] at hsprow
          obtain ⟨it, hit, hrow⟩ := List.mem_map.mp hsprow
          rw [← hrow]
          exact ⟨rfl, rfl⟩
    constructor
    · -- (b) the spacing-predicate rows are exactly one mapped row per source
      rw [List.filter_append, a9, List.nil_append]
      by_cases hitems : (analyzeProps (processCtx lookup names docName moduleName w)
          initState w.designProperties).spacingPropertiesToMap.isEmpty = true
      · rw [if_pos hitems]
        have : (analyzeProps (processCtx lookup names docName moduleName w) initState
            w.designProperties).spacingPropertiesToMap = [] := by
          simpa using hitems
        rw [this] at a8
        have hcl : w.designProperties.filter
            (spacingProp (processCtx lookup names docName moduleName w)) = [] := by
          have := a8.symm
          simpa using this
        rw [hcl]
        simp
      · rw [if_neg hitems, a8]
        rw [List.filter_eq_self.mpr]
        · rw [List.map_map]
          rfl
        · intro r hrm
          obtain ⟨it, hit, hrow⟩ := List.mem_map.mp hrm
          obtain ⟨p, hp, hpit⟩ := List.mem_map.mp hit
          rw [← hrow, ← hpit]
          exact (List.mem_filter.mp hp).2
    constructor
    · -- (c) removed counter equals the number of removed rows
      rw [List.filter_append]
      have hnone : (if (analyzeProps (processCtx lookup names docName moduleName w)
            initState w.designProperties).spacingPropertiesToMap.isEmpty = true then
            ([] : List CsvDataRow)
          else (analyzeProps (processCtx lookup names docName moduleName w) initState
            w.designProperties).spacingPropertiesToMap.map
              (csvSpacingRow (processCtx lookup names docName moduleName w))).filter
          isRemovedRow = [] := by
        split
        · rfl
        · rw [List.filter_eq_nil_iff]
          intro r hrm
          obtain ⟨it, hit, hrow⟩ := List.mem_map.mp hrm
          rw [← hrow]
          simp [isRemovedRow, csvSpacingRow]
      rw [hnone, List.append_nil]
      exact hbal
    · -- (d) merged sources are deleted from the final property list
      intro p hp hsp
      intro hmemid
      obtain ⟨q, hq, hqid⟩ := List.mem_map.mp hmemid
      have hq2 := widgetPhase_mem _ _ _ _ hq
      obtain ⟨hnotrem, _⟩ := removalPhase_not_removed _ _ _ hq2
      have hpid : p.id ∈ ((analyzeProps (processCtx lookup names docName moduleName w)
          initState w.designProperties).toRemove ++
          (analyzeProps (processCtx lookup names docName moduleName w) initState
            w.designProperties).spacingPropertiesToMap.map (fun it => it.prop)).map
          (fun pp => pp.id) := by
        refine List.mem_map.mpr ⟨p, ?_, rfl⟩
        refine List.mem_append.mpr (Or.inr ?_)
        rw [a8]
        rw [List.map_map]
        refine List.mem_map.mpr ⟨p, List.mem_filter.mpr ⟨hp, hsp⟩, rfl⟩
      rw [hqid] at hnotrem
      rw [show (((analyzeProps (processCtx lookup names docName moduleName w) initState
          w.designProperties).toRemove ++
          (analyzeProps (processCtx lookup names docName moduleName w) initState
            w.designProperties).spacingPropertiesToMap.map (fun it => it.prop)).map
          (fun pp => pp.id)).contains p.id = true from by
        simpa using hpid] at hnotrem
      exact Bool.noConfusion hnotrem

/-- A mappings file with the single padding-left spacing rule. -/
def c7File : List PropertyMappingV2 := [rulePaddingLeft]

/-- A target-type widget carrying an existing `Spacing` property and one
native spacing property. -/
def c7Widget : Widget :=
  { tpe := "DivContainer", name := "W1", isActionButton := false, attrs := [],
    designProperties :=
      [spacingPropEx,
       { id := 6, key := "Native padding left", value := DesignValue.option "Medium" }] }

theorem C7_spacing_sources_audited_mapped_witness :
    ((processWidget (mappingsLookup c7File) (mappedPropertyNames c7File) "Doc" "Mod"
        c7Widget).2.2.filter
      (fun r => spacingKV (processCtx (mappingsLookup c7File) (mappedPropertyNames c7File)
        "Doc" "Mod" c7Widget) r.property r.value)) =
      (c7Widget.designProperties.filter
          (spacingProp (processCtx (mappingsLookup c7File) (mappedPropertyNames c7File)
            "Doc" "Mod" c7Widget))).map
        (fun p => csvSpacingRow (processCtx (mappingsLookup c7File)
          (mappedPropertyNames c7File) "Doc" "Mod" c7Widget)
          (spacingItemOf (processCtx (mappingsLookup c7File) (mappedPropertyNames c7File)
            "Doc" "Mod" c7Widget) p)) :=
  (C7_spacing_sources_audited_mapped (mappingsLookup c7File) (mappedPropertyNames c7File)
    "Doc" "Mod" c7Widget (by decide)).2.1

/-! ## C2: mutations are applied before confirmation; only the commit is
gated -/

/-- C2 (amended): the operator's answer gates only the backend commit.
Declining commits nothing to the persistence backend, while the in-memory
working-copy state handed to the confirmation prompt — with every queued
mutation already executed during per-widget processing — and all audit totals
and rows are identical whatever the answer is. -/
theorem C2_decline_commits_nothing (lookup : List (String × PropertyMappingV2))
    (names : List String) (docName moduleName : String) (ws : List Widget) :
    (runMain lookup names docName moduleName ws false).committed = Option.none ∧
    (runMain lookup names docName moduleName ws false).finalWidgets =
      widgetsAtConfirmation lookup names docName moduleName ws ∧
    (runMain lookup names docName moduleName ws true).finalWidgets =
      widgetsAtConfirmation lookup names docName moduleName ws ∧
    (runMain lookup names docName moduleName ws false).totals =
      (runMain lookup names docName moduleName ws true).totals ∧
    (runMain lookup names docName moduleName ws false).csv =
      (runMain lookup names docName moduleName ws true).csv := by
  refine ⟨?_, rfl, rfl, rfl, rfl⟩
  unfold runMain
  dsimp only
  split <;> rfl

/-- A target-type widget with one mappable design property. -/
def c2Widget : Widget :=
  { tpe := "DivContainer", name := "W", isActionButton := false, attrs := [],
    designProperties :=
      [{ id := 1, key := "Justify content", value := DesignValue.option "Center" }] }

/-- C2 counterexample: on a run over `c2Widget` the property is already
rewritten (`Justify content = Center` has become `Align content = Center`) in
the in-memory working copy at the moment the confirmation prompt is reached —
i.e. the queued rewrite is applied before the operator confirms, refuting the
claim's first part; when the operator declines, the audit counts are non-zero
yet the backend receives no commit, as the claim's second part states. -/
theorem C2_counterexample :
    (runMain demoLookup (mappedPropertyNames demoFile) "Doc" "Mod" [c2Widget]
      false).committed = Option.none ∧
    (runMain demoLookup (mappedPropertyNames demoFile) "Doc" "Mod" [c2Widget]
      false).totals.mapped = 1 ∧
    (widgetsAtConfirmation demoLookup (mappedPropertyNames demoFile) "Doc" "Mod"
        [c2Widget]).map
      (fun w => w.designProperties.map (fun p => (p.key, extractPropertyValue p.value))) =
      [[("Align content", "Center")]] ∧
    [c2Widget].map
      (fun w => w.designProperties.map (fun p => (p.key, extractPropertyValue p.value))) =
      [[("Justify content", "Center")]] := by
  refine ⟨rfl, rfl, rfl, rfl⟩

end CleanNativeProps
